import Mathlib

/-!
Verification development for the alias-analysis lowering stage
(`src/compiler/mono/src/alias_analysis.rs`).

The Rust code drives the external `morphic_lib` builder API.  We embed the
builder as explicit state: an append-only log of emitted operations plus
fresh-id counters for values, blocks and continuations.  Solver type handles
(`add_tuple_type`, `add_bag_type`, ...) are modelled structurally by the
inductive `MTy`; the builder interns structurally equal types, so this is
faithful for every property stated here.  Rust panics (`panic!`,
`unreachable!`, indexing a missing map key or slice position) are modelled as
an abrupt `Fault`, kept distinct from ordinary returned values; the builder
API's recoverable `Result` errors never arise in this embedding because type
and value composition is total here.

The statement lowering `stmt_spec` recurses through a statement tree that
nests lists of statements, so it is written with an explicit fuel parameter
(a structural recursion on the fuel); any fuel at least `sizeOf stmt` is
enough, since every recursive call consumes one unit and descends to a strict
subterm.  All other recursions mirror the source's own call structure.
-/

namespace AA

/-- Symbols are `roc_module::symbol::Symbol`: a 64-bit identity. -/
abbrev Symbol := Nat

/-- Value handles produced by the morphic builder. -/
abbrev ValueId := Nat

/-- Block handles produced by `add_block`. -/
abbrev BlockId := Nat

/-- Continuation handles produced by `declare_continuation`. -/
abbrev ContId := Nat

/-- `MOD_APP`: the single module name, the bytes of `b"UserApp"`. -/
def MOD_APP : List Nat := [85, 115, 101, 114, 65, 112, 112]

/-- Modelled from the spec: `Symbol::STR_ALIAS_ANALYSIS_STATIC`, the reserved
symbol naming the shared static-string constant.  Its numeric identity lives
in the `roc_module` crate, which is not part of the sources under study; only
its fixedness matters here, so an arbitrary fixed value is used. -/
def STR_ALIAS_ANALYSIS_STATIC : Symbol := 39

/-- `ENTRY_POINT_NAME`: the bytes of `b"mainForHost"`. -/
def ENTRY_POINT_NAME : List Nat := [109, 97, 105, 110, 70, 111, 114, 72, 111, 115, 116]

mutual

/-- `crate::layout::Layout`.  `Closure(&[Layout], LambdaSet, &Layout)` is
flattened: `captured` models the lambda set's captured-environment identity
and `representation` models `lambda_set.runtime_representation()` (the
`LambdaSet` type itself lives in the layout module, outside the sources under
study; only those two projections of it are consulted here). -/
inductive Layout where
  | Builtin (b : Builtin)
  | Struct (fields : List Layout)
  | Union (u : UnionLayout)
  | RecursivePointer
  | Closure (args : List Layout) (captured : List Layout) (representation : Layout)
      (ret : Layout)

/-- `crate::layout::Builtin`. -/
inductive Builtin where
  | Int128 | Int64 | Int32 | Int16 | Int8 | Int1 | Usize
  | Decimal | Float128 | Float64 | Float32 | Float16
  | Str | EmptyStr
  | Dict (key_layout : Layout) (value_layout : Layout)
  | Set (key_layout : Layout)
  | List (element_layout : Layout)
  | EmptyList | EmptyDict | EmptySet

/-- `crate::layout::UnionLayout`. -/
inductive UnionLayout where
  | NonRecursive (tags : List (List Layout))
  | Recursive (tags : List (List Layout))
  | NonNullableUnwrapped (fields : List Layout)
  | NullableWrapped (nullable_id : Nat) (other_tags : List (List Layout))
  | NullableUnwrapped (nullable_id : Bool) (other_fields : List Layout)

end

/-- `lambda_set.runtime_representation()` on a closure layout. -/
def Layout.runtime_representation : Layout → Option Layout
  | .Closure _ _ representation _ => some representation
  | _ => none

/-- The native-endian bytes of a 64-bit integer, least significant byte
first (`to_ne_bytes` on x86-64). -/
def toNeBytes8 (n : Nat) : List Nat :=
  [n % 256, n / 256 % 256, n / 256 ^ 2 % 256, n / 256 ^ 3 % 256,
   n / 256 ^ 4 % 256, n / 256 ^ 5 % 256, n / 256 ^ 6 % 256, n / 256 ^ 7 % 256]

/-- Modelled from the spec: one mixing step of the general-purpose 64-bit
hash function (`std::collections::hash_map::DefaultHasher`, whose algorithm
lives in the Rust standard library, outside these sources).  Any
deterministic 64-bit fold is faithful to every property stated here. -/
def hashStep (h : Nat) (t : Nat) : Nat := (h * 1099511628211 + t + 1) % 2 ^ 64

mutual

/-- Modelled from the spec: the token stream fed to the hasher by the derived
structural `Hash` of `Layout` (a constructor discriminant followed by the
tokens of every field, in order). -/
def hashTokens : Layout → List Nat
  | .Builtin b => 0 :: builtinHashTokens b
  | .Struct fields => 1 :: hashTokensList fields
  | .Union u => 2 :: unionHashTokens u
  | .RecursivePointer => [3]
  | .Closure args captured representation ret =>
    4 :: (hashTokensList args ++ hashTokensList captured ++
          hashTokens representation ++ hashTokens ret)

/-- Hash-token streams of the builtin layouts. -/
def builtinHashTokens : Builtin → List Nat
  | .Int128 => [0] | .Int64 => [1] | .Int32 => [2] | .Int16 => [3]
  | .Int8 => [4] | .Int1 => [5] | .Usize => [6]
  | .Decimal => [7] | .Float128 => [8] | .Float64 => [9]
  | .Float32 => [10] | .Float16 => [11]
  | .Str => [12] | .EmptyStr => [13]
  | .Dict key_layout value_layout => 14 :: (hashTokens key_layout ++ hashTokens value_layout)
  | .Set key_layout => 15 :: hashTokens key_layout
  | .List element_layout => 16 :: hashTokens element_layout
  | .EmptyList => [17] | .EmptyDict => [18] | .EmptySet => [19]

/-- Hash-token streams of the union layouts. -/
def unionHashTokens : UnionLayout → List Nat
  | .NonRecursive tags => 0 :: hashTokensTags tags
  | .Recursive tags => 1 :: hashTokensTags tags
  | .NonNullableUnwrapped fields => 2 :: hashTokensList fields
  | .NullableWrapped nullable_id other_tags => 3 :: nullable_id :: hashTokensTags other_tags
  | .NullableUnwrapped nullable_id other_fields =>
    4 :: (if nullable_id then 1 else 0) :: hashTokensList other_fields

/-- Hash-token stream of a list of layouts. -/
def hashTokensList : List Layout → List Nat
  | [] => []
  | l :: rest => hashTokens l ++ hashTokensList rest

/-- Hash-token stream of a list of per-tag layout lists. -/
def hashTokensTags : List (List Layout) → List Nat
  | [] => []
  | tag :: rest => hashTokensList tag ++ hashTokensTags rest

end

/-- `layout.hash(&mut hasher)`: fold the layout's token stream into the
hasher state. -/
def hashLayoutInto (h : Nat) (l : Layout) : Nat := (hashTokens l).foldl hashStep h

/-- The hash computed by `func_name_bytes_help` over the ordered argument
layouts and then the return layout.  A closure-typed layout contributes its
lambda set's runtime representation instead of its own structure. -/
def layout_signature_hash (argument_layouts : List Layout) (return_layout : Layout) : Nat :=
  let h := argument_layouts.foldl
    (fun h layout =>
      match layout with
      | .Closure _ _ representation _ => hashLayoutInto h representation
      | _ => hashLayoutInto h layout)
    0
  match return_layout with
  | .Closure _ _ representation _ => hashLayoutInto h representation
  | _ => hashLayoutInto h return_layout

/-- `func_name_bytes_help` with `DEBUG = false`, `SIZE = 16`: the symbol's
native bytes chained with the layout hash's bytes, zipped into a 16-byte
buffer (8 + 8 bytes fill it exactly). -/
def func_name_bytes_help (symbol : Symbol) (argument_layouts : List Layout)
    (return_layout : Layout) : List Nat :=
  toNeBytes8 symbol ++ toNeBytes8 (layout_signature_hash argument_layouts return_layout)

/-- `STATIC_STR_NAME`: the native bytes of the reserved static-string
symbol. -/
def STATIC_STR_NAME : List Nat := toNeBytes8 STR_ALIAS_ANALYSIS_STATIC

/-- Solver type handles, modelled structurally: `add_heap_cell_type`,
`add_bag_type`, `add_tuple_type`, `add_union_type`. -/
inductive MTy where
  | heapCell
  | bag (element : MTy)
  | tuple (fields : List MTy)
  | union (variants : List MTy)

/-- `worst_case_type`: a bag whose element type is a heap cell
(`add_bag_type(add_heap_cell_type())`). -/
def worst_case_type : MTy := MTy.bag MTy.heapCell

/-- `str_type`: a tuple of one heap-cell type. -/
def str_type : MTy := MTy.tuple [MTy.heapCell]

mutual

/-- `layout_spec`: map a layout to its solver type. -/
def layout_spec : Layout → MTy
  | .Builtin builtin => builtin_spec builtin
  | .Struct fields => build_tuple_type fields
  | .Union union_layout =>
    match union_layout with
    | .NonRecursive tags => MTy.union (nonrec_variant_types tags)
    | .Recursive _ => worst_case_type
    | .NonNullableUnwrapped _ => worst_case_type
    | .NullableWrapped _ _ => worst_case_type
    | .NullableUnwrapped _ _ => worst_case_type
  | .RecursivePointer => worst_case_type
  | .Closure _ _ representation _ => layout_spec representation
termination_by l => (sizeOf l, 0)
decreasing_by all_goals simp [Prod.lex_iff] <;> omega

/-- `builtin_spec`. -/
def builtin_spec : Builtin → MTy
  | .Int128 | .Int64 | .Int32 | .Int16 | .Int8 | .Int1 | .Usize => MTy.tuple []
  | .Decimal | .Float128 | .Float64 | .Float32 | .Float16 => MTy.tuple []
  | .Str | .EmptyStr => str_type
  | .Dict key_layout value_layout =>
    let value_type := layout_spec value_layout
    let key_type := layout_spec key_layout
    MTy.tuple [MTy.heapCell, MTy.bag (MTy.tuple [key_type, value_type])]
  | .Set key_layout =>
    let value_type := MTy.tuple []
    let key_type := layout_spec key_layout
    MTy.tuple [MTy.heapCell, MTy.bag (MTy.tuple [key_type, value_type])]
  | .List element_layout =>
    MTy.tuple [MTy.heapCell, MTy.bag (layout_spec element_layout)]
  | .EmptyList => MTy.tuple [MTy.heapCell, MTy.bag (MTy.tuple [])]
  | .EmptyDict | .EmptySet =>
    MTy.tuple [MTy.heapCell, MTy.bag (MTy.tuple [MTy.tuple [], MTy.tuple []])]
termination_by b => (sizeOf b, 1)
decreasing_by all_goals simp [Prod.lex_iff] <;> omega

/-- `build_tuple_type`: tuple of the modelled field types, order
preserved. -/
def build_tuple_type (layouts : List Layout) : MTy := MTy.tuple (tuple_field_types layouts)
termination_by (sizeOf layouts, 1)
decreasing_by all_goals simp [Prod.lex_iff] <;> omega

/-- The field types collected by `build_tuple_type`'s loop. -/
def tuple_field_types : List Layout → List MTy
  | [] => []
  | field :: rest => layout_spec field :: tuple_field_types rest
termination_by layouts => (sizeOf layouts, 0)
decreasing_by all_goals simp [Prod.lex_iff] <;> omega

/-- The per-tag tuple types collected by `build_variant_types` on a
non-recursive union. -/
def nonrec_variant_types : List (List Layout) → List MTy
  | [] => []
  | tag :: rest => build_tuple_type tag :: nonrec_variant_types rest
termination_by tags => (sizeOf tags, 0)
decreasing_by all_goals simp [Prod.lex_iff] <;> omega

end

/-- The operations a builder block can record, one constructor per
`morphic_lib` builder call used by the source. -/
inductive Op where
  | newHeapCell
  | emptyBag (element_type : MTy)
  | makeTuple (fields : List ValueId)
  | getTupleField (tuple : ValueId) (index : Nat)
  | bagInsert (bag : ValueId) (value : ValueId)
  | bagGet (bag : ValueId)
  | touch (value : ValueId)
  | recursiveTouch (value : ValueId)
  | update (update_mode_var : List Nat) (cell : ValueId)
  | callOp (callee_spec_var : List Nat) (module : List Nat) (name : List Nat)
      (argument : ValueId)
  | constRef (module : List Nat) (name : List Nat)
  | unknownWith (arguments : List ValueId) (result_type : MTy)
  | choice (cases : List (BlockId × ValueId))
  | subBlock (body : BlockId × ValueId)
  | jumpOp (continuation : ContId) (argument : ValueId) (return_type : MTy)
  | terminate (result_type : MTy)
  | makeUnion (variant_types : List MTy) (tag_id : Nat) (value : ValueId)
  | unwrapUnion (value : ValueId) (tag_id : Nat)
  | declareCont (argument_type : MTy) (return_type : MTy)

/-- The state of a `FuncDefBuilder` / `ConstDefBuilder`: the append-only log
of operations (each paired with the block it was added to), the continuation
definitions, and fresh-id counters. -/
structure Builder where
  ops : List (BlockId × Op)
  contDefs : List (ContId × BlockId × ValueId)
  nextValue : Nat
  nextBlock : Nat
  nextCont : Nat

/-- A fresh `ConstDefBuilder`. -/
def Builder.constInit : Builder := ⟨[], [], 0, 0, 0⟩

/-- A fresh `FuncDefBuilder`; value id 0 is reserved for `get_argument`. -/
def Builder.funcInit : Builder := ⟨[], [], 1, 0, 0⟩

/-- `builder.get_argument()`: the distinguished argument value. -/
def Builder.getArgument : ValueId := 0

/-- Append one operation to a block and return its fresh result value. -/
def Builder.emit (b : Builder) (block : BlockId) (op : Op) : ValueId × Builder :=
  (b.nextValue,
   { b with ops := b.ops ++ [(block, op)], nextValue := b.nextValue + 1 })

/-- `builder.add_block()`. -/
def Builder.addBlock (b : Builder) : BlockId × Builder :=
  (b.nextBlock, { b with nextBlock := b.nextBlock + 1 })

/-- `builder.declare_continuation(block, arg_type, ret_type)`: a fresh
continuation id together with the continuation's argument value. -/
def Builder.declareContinuation (b : Builder) (block : BlockId) (argument_type : MTy)
    (return_type : MTy) : ContId × ValueId × Builder :=
  (b.nextCont, b.nextValue,
   { b with ops := b.ops ++ [(block, .declareCont argument_type return_type)],
            nextValue := b.nextValue + 1, nextCont := b.nextCont + 1 })

/-- `builder.define_continuation(id, body)`. -/
def Builder.defineContinuation (b : Builder) (c : ContId) (body : BlockId × ValueId) :
    Builder :=
  { b with contDefs := b.contDefs ++ [(c, body)] }

/-- The abrupt faults of the lowering: a Rust `panic!` on an unbound symbol,
an absent join point, an out-of-range slice index, or an `unreachable!` arm.
`outOfFuel` marks exhaustion of the artificial fuel of `stmt_spec` and never
arises when the fuel is at least `sizeOf` of the statement. -/
inductive Fault where
  | unboundSymbol (s : Symbol)
  | undeclaredJoinPoint (id : Nat)
  | indexOutOfRange
  | unreachableCase
  | outOfFuel

/-- The `Env`: the variable environment and the join-point environment,
modelled as the lookup functions of the two hash maps. -/
structure Env where
  symbols : Symbol → Option ValueId
  join_points : Nat → Option ContId

/-- The empty environment (`Env::default()`). -/
def Env.init : Env := ⟨fun _ => none, fun _ => none⟩

/-- `env.symbols.insert(s, v)`. -/
def Env.insertSymbol (e : Env) (s : Symbol) (v : ValueId) : Env :=
  { e with symbols := fun x => if x = s then some v else e.symbols x }

/-- `env.symbols.remove(s)`: deletes the binding entirely. -/
def Env.removeSymbol (e : Env) (s : Symbol) : Env :=
  { e with symbols := fun x => if x = s then none else e.symbols x }

/-- `env.join_points.insert(id, c)`. -/
def Env.insertJoin (e : Env) (id : Nat) (c : ContId) : Env :=
  { e with join_points := fun x => if x = id then some c else e.join_points x }

/-- `env.join_points.remove(id)`. -/
def Env.removeJoin (e : Env) (id : Nat) : Env :=
  { e with join_points := fun x => if x = id then none else e.join_points x }

/-- `env.symbols[&s]`: panics when the symbol is unbound. -/
def envGet (env : Env) (s : Symbol) : Except Fault ValueId :=
  match env.symbols s with
  | some v => .ok v
  | none => .error (.unboundSymbol s)

/-- `arguments[i]`: panics when the index is out of range. -/
def argGet (arguments : List Symbol) (i : Nat) : Except Fault Symbol :=
  match arguments[i]? with
  | some s => .ok s
  | none => .error .indexOutOfRange

/-- `env.symbols[&arguments[i]]`. -/
def envGetArg (env : Env) (arguments : List Symbol) (i : Nat) : Except Fault ValueId := do
  envGet env (← argGet arguments i)

/-- `crate::ir::Literal`.  String contents are irrelevant to the lowering
and are modelled by their bytes. -/
inductive Literal where
  | Str (s : List Nat)
  | Int (n : Int)
  | Float (n : Int)
  | Bool (b : Bool)
  | Byte (n : Nat)

/-- `roc_module::low_level::LowLevel`, restricted to the opcodes the lowering
names; `Other` stands for every remaining opcode, which the lowering treats
uniformly in its fallback arm. -/
inductive LowLevel where
  | NumAdd | NumSub
  | NumToFloat
  | Eq | NotEq
  | NumLte | NumLt | NumGt | NumGte | NumCompare
  | ListLen | DictSize
  | ListGetUnsafe | ListSet | ListAppend
  | DictEmpty | DictGetUnsafe | DictInsert
  | ListMap | ListMapWithIndex | ListMap2 | ListMap3
  | ListWalk | ListWalkUntil | ListWalkBackwards | DictWalk
  | ListKeepIf | ListKeepOks | ListKeepErrs
  | ListSortWith
  | Other (code : Nat)

mutual

/-- `crate::ir::Stmt`.  `Invoke`'s `exception_id` and `Resume`'s id are
ignored by the lowering and omitted; `Switch` keeps only the branch bodies
(the integer labels and the condition are ignored);
join-point parameters keep their `(symbol, layout)` projections. -/
inductive Stmt where
  | Let (symbol : Symbol) (expr : Expr) (expr_layout : Layout) (continuation : Stmt)
  | Invoke (symbol : Symbol) (call : Call) (call_layout : Layout) (pass : Stmt)
      (fail : Stmt)
  | Switch (branches : List Stmt) (default_branch : Stmt)
  | Ret (symbol : Symbol)
  | Refcounting (modify_rc : ModifyRc) (continuation : Stmt)
  | Join (id : Nat) (parameters : List (Symbol × Layout)) (body : Stmt)
      (remainder : Stmt)
  | Jump (id : Nat) (symbols : List Symbol)
  | Resume
  | RuntimeError

/-- `crate::ir::Expr`.  Fields the lowering ignores (tag names, the reuse
token, string contents of runtime errors) are omitted. -/
inductive Expr where
  | Literal (literal : Literal)
  | Call (call : Call)
  | Tag (tag_layout : UnionLayout) (tag_id : Nat) (arguments : List Symbol)
  | Reuse (tag_layout : UnionLayout) (tag_id : Nat) (arguments : List Symbol)
  | Struct (fields : List Symbol)
  | UnionAtIndex (structure_ : Symbol) (tag_id : Nat) (union_layout : UnionLayout)
      (index : Nat)
  | StructAtIndex (index : Nat) (structure_ : Symbol)
  | Array (elem_layout : Layout) (elems : List Symbol)
  | EmptyArray
  | Reset (symbol : Symbol)
  | RuntimeErrorFunction
  | GetTagId

/-- `crate::ir::Call`. -/
inductive Call where
  | mk (call_type : CallType) (arguments : List Symbol)

/-- `crate::ir::CallType`.  Byte-array tokens model `specialization_id
.to_bytes()` and `update_mode.to_bytes()`. -/
inductive CallType where
  | ByName (name : Symbol) (ret_layout : Layout) (arg_layouts : List Layout)
      (specialization_id : List Nat)
  | Foreign (foreign_symbol : List Nat) (ret_layout : Layout)
  | LowLevelCall (op : LowLevel) (update_mode : List Nat)
  | HigherOrderLowLevel (specialization_id : List Nat)
      (closure_env_layout : Option Layout) (op : LowLevel)
      (arg_layouts : List Layout) (ret_layout : Layout)

/-- `crate::ir::ModifyRc`. -/
inductive ModifyRc where
  | Inc (symbol : Symbol) (n : Nat)
  | Dec (symbol : Symbol)
  | DecRef (symbol : Symbol)

end

/-- The call type of a call. -/
def Call.call_type : Call → CallType
  | .mk ct _ => ct

/-- The argument symbols of a call. -/
def Call.arguments : Call → List Symbol
  | .mk _ args => args

/-- The symbol a refcount operation references. -/
def ModifyRc.symbol : ModifyRc → Symbol
  | .Inc s _ => s
  | .Dec s => s
  | .DecRef s => s

/-- Modelled from the spec: `ListLayout` of the layout module. -/
inductive ListLayout where
  | EmptyList
  | List (element_layout : Layout)

/-- Modelled from the spec: `ListLayout::try_from`, classifying a layout as a
list layout — a list builtin converts to a list descriptor with its element
layout, the empty-list builtin to the empty descriptor, anything else is
refused. -/
def listLayoutTryFrom : Layout → Except Unit ListLayout
  | .Builtin (.List element_layout) => .ok (.List element_layout)
  | .Builtin .EmptyList => .ok .EmptyList
  | _ => .error ()

/-- `LIST_CELL_INDEX`. -/
def LIST_CELL_INDEX : Nat := 0

/-- `LIST_BAG_INDEX`. -/
def LIST_BAG_INDEX : Nat := 1

/-- `DICT_CELL_INDEX`. -/
def DICT_CELL_INDEX : Nat := LIST_CELL_INDEX

/-- `DICT_BAG_INDEX`. -/
def DICT_BAG_INDEX : Nat := LIST_BAG_INDEX

/-- `new_list`: fresh heap cell, empty bag, paired into a tuple. -/
def new_list (b : Builder) (block : BlockId) (element_type : MTy) : ValueId × Builder :=
  let (cell, b) := b.emit block .newHeapCell
  let (bag, b) := b.emit block (.emptyBag element_type)
  b.emit block (.makeTuple [cell, bag])

/-- `new_dict`: fresh heap cell, empty bag of key-value pairs, paired into a
tuple. -/
def new_dict (b : Builder) (block : BlockId) (key_type : MTy) (value_type : MTy) :
    ValueId × Builder :=
  let (cell, b) := b.emit block .newHeapCell
  let element_type := MTy.tuple [key_type, value_type]
  let (bag, b) := b.emit block (.emptyBag element_type)
  b.emit block (.makeTuple [cell, bag])

/-- `new_static_string`: a reference to the shared static-string constant. -/
def new_static_string (b : Builder) (block : BlockId) : ValueId × Builder :=
  b.emit block (.constRef MOD_APP STATIC_STR_NAME)

/-- `new_num`: all numbers are modelled as unit values. -/
def new_num (b : Builder) (block : BlockId) : ValueId × Builder :=
  b.emit block (.makeTuple [])

/-- `literal_spec`. -/
def literal_spec (b : Builder) (block : BlockId) (literal : Literal) :
    ValueId × Builder :=
  match literal with
  | .Str _ => new_static_string b block
  | .Int _ | .Float _ | .Bool _ | .Byte _ => b.emit block (.makeTuple [])

/-- `build_tuple_value`: look up every symbol (a panic when one is unbound)
and make a tuple of the handles. -/
def build_tuple_value (b : Builder) (env : Env) (block : BlockId)
    (symbols : List Symbol) : Except Fault (ValueId × Builder) := do
  let value_ids ← symbols.mapM (envGet env)
  .ok (b.emit block (.makeTuple value_ids))

/-- `build_variant_types`: per-tag tuple types of a non-recursive union; the
recursive shapes are `unreachable!`. -/
def build_variant_types (union_layout : UnionLayout) : Except Fault (List MTy) :=
  match union_layout with
  | .NonRecursive tags => .ok (nonrec_variant_types tags)
  | .Recursive _ => .error .unreachableCase
  | .NonNullableUnwrapped _ => .error .unreachableCase
  | .NullableWrapped _ _ => .error .unreachableCase
  | .NullableUnwrapped _ _ => .error .unreachableCase

/-- `lowlevel_spec`. -/
def lowlevel_spec (b : Builder) (env : Env) (block : BlockId) (layout : Layout)
    (op : LowLevel) (update_mode : List Nat) (arguments : List Symbol) :
    Except Fault (ValueId × Builder) :=
  let type_id := layout_spec layout
  match op with
  | .NumAdd | .NumSub =>
    let (pass_b, b) := b.addBlock
    let (pass_value, b) := new_num b pass_b
    let (fail_b, b) := b.addBlock
    let (fail_value, b) := b.emit fail_b (.terminate type_id)
    let (sub_b, b) := b.addBlock
    let (choice_value, b) := b.emit sub_b (.choice [(pass_b, pass_value), (fail_b, fail_value)])
    .ok (b.emit block (.subBlock (sub_b, choice_value)))
  | .NumToFloat => .ok (b.emit block (.makeTuple []))
  | .Eq | .NotEq => .ok (b.emit block (.makeTuple []))
  | .NumLte | .NumLt | .NumGt | .NumGte | .NumCompare => .ok (b.emit block (.makeTuple []))
  | .ListLen | .DictSize => .ok (b.emit block (.makeTuple []))
  | .ListGetUnsafe => do
    let list ← envGetArg env arguments 0
    let (bag, b) := b.emit block (.getTupleField list LIST_BAG_INDEX)
    let (cell, b) := b.emit block (.getTupleField list LIST_CELL_INDEX)
    let (_unit, b) := b.emit block (.touch cell)
    .ok (b.emit block (.bagGet bag))
  | .ListSet => do
    let list ← envGetArg env arguments 0
    let to_insert ← envGetArg env arguments 2
    let (bag, b) := b.emit block (.getTupleField list LIST_BAG_INDEX)
    let (cell, b) := b.emit block (.getTupleField list LIST_CELL_INDEX)
    let (_unit, b) := b.emit block (.update update_mode cell)
    let (_bag, b) := b.emit block (.bagInsert bag to_insert)
    .ok (list, b)
  | .ListAppend => do
    let list ← envGetArg env arguments 0
    let to_insert ← envGetArg env arguments 1
    let (bag, b) := b.emit block (.getTupleField list LIST_BAG_INDEX)
    let (cell, b) := b.emit block (.getTupleField list LIST_CELL_INDEX)
    let (_unit, b) := b.emit block (.update update_mode cell)
    let (_bag, b) := b.emit block (.bagInsert bag to_insert)
    .ok (list, b)
  | .DictEmpty =>
    match layout with
    | .Builtin .EmptyDict =>
      let type_id := MTy.tuple []
      .ok (new_dict b block type_id type_id)
    | .Builtin (.Dict key_layout value_layout) =>
      let key_id := layout_spec key_layout
      let value_id := layout_spec value_layout
      .ok (new_dict b block key_id value_id)
    | _ => .error .unreachableCase
  | .DictGetUnsafe => do
    let dict ← envGetArg env arguments 0
    let key ← envGetArg env arguments 1
    let (_t, b) := b.emit block (.recursiveTouch key)
    let (bag, b) := b.emit block (.getTupleField dict DICT_BAG_INDEX)
    let (cell, b) := b.emit block (.getTupleField dict DICT_CELL_INDEX)
    let (_unit, b) := b.emit block (.touch cell)
    .ok (b.emit block (.bagGet bag))
  | .DictInsert => do
    let dict ← envGetArg env arguments 0
    let key ← envGetArg env arguments 1
    let value ← envGetArg env arguments 2
    let (key_value, b) := b.emit block (.makeTuple [key, value])
    let (bag, b) := b.emit block (.getTupleField dict DICT_BAG_INDEX)
    let (cell, b) := b.emit block (.getTupleField dict DICT_CELL_INDEX)
    let (_unit, b) := b.emit block (.update update_mode cell)
    let (_bag, b) := b.emit block (.bagInsert bag key_value)
    .ok (dict, b)
  | _ => do
    let args ← arguments.mapM (envGet env)
    .ok (b.emit block (.unknownWith args type_id))

/-- `call_spec`. -/
def call_spec (b : Builder) (env : Env) (block : BlockId) (layout : Layout)
    (call : Call) : Except Fault (ValueId × Builder) :=
  match call.call_type with
  | .ByName symbol ret_layout arg_layouts specialization_id => do
    let (arg_value_id, b) ← build_tuple_value b env block call.arguments
    let bytes := func_name_bytes_help symbol arg_layouts ret_layout
    .ok (b.emit block (.callOp specialization_id MOD_APP bytes arg_value_id))
  | .Foreign _ ret_layout => do
    let arguments ← call.arguments.mapM (envGet env)
    let result_type := layout_spec ret_layout
    .ok (b.emit block (.unknownWith arguments result_type))
  | .LowLevelCall op update_mode =>
    lowlevel_spec b env block layout op update_mode call.arguments
  | .HigherOrderLowLevel specialization_id closure_env_layout op arg_layouts
      ret_layout => do
    let symbol ←
      match op with
      | .ListMap | .ListMapWithIndex => argGet call.arguments 1
      | .ListMap2 => argGet call.arguments 2
      | .ListMap3 => argGet call.arguments 3
      | .ListWalk | .ListWalkUntil | .ListWalkBackwards | .DictWalk =>
        argGet call.arguments 2
      | .ListKeepIf | .ListKeepOks | .ListKeepErrs => argGet call.arguments 1
      | .ListSortWith => argGet call.arguments 1
      | _ => .error .unreachableCase
    let bytes := func_name_bytes_help symbol arg_layouts ret_layout
    let b ←
      match op with
      | .DictWalk => do
        let dict ← envGetArg env call.arguments 0
        let defaultv ← envGetArg env call.arguments 1
        let closure_env ← envGetArg env call.arguments 3
        let (bag, b) := b.emit block (.getTupleField dict DICT_BAG_INDEX)
        let (_cell, b) := b.emit block (.getTupleField dict DICT_CELL_INDEX)
        let (first, b) := b.emit block (.bagGet bag)
        let (key, b) := b.emit block (.getTupleField first 0)
        let (val, b) := b.emit block (.getTupleField first 1)
        let (argument, b) :=
          if closure_env_layout.isNone then
            b.emit block (.makeTuple [key, val, defaultv])
          else
            b.emit block (.makeTuple [key, val, defaultv, closure_env])
        let (_call, b) := b.emit block (.callOp specialization_id MOD_APP bytes argument)
        .ok b
      | .ListWalk | .ListWalkBackwards | .ListWalkUntil => do
        let list ← envGetArg env call.arguments 0
        let defaultv ← envGetArg env call.arguments 1
        let closure_env ← envGetArg env call.arguments 3
        let (bag, b) := b.emit block (.getTupleField list LIST_BAG_INDEX)
        let (_cell, b) := b.emit block (.getTupleField list LIST_CELL_INDEX)
        let (first, b) := b.emit block (.bagGet bag)
        let (argument, b) :=
          if closure_env_layout.isNone then
            b.emit block (.makeTuple [first, defaultv])
          else
            b.emit block (.makeTuple [first, defaultv, closure_env])
        let (_call, b) := b.emit block (.callOp specialization_id MOD_APP bytes argument)
        .ok b
      | .ListMapWithIndex => do
        let list ← envGetArg env call.arguments 0
        let closure_env ← envGetArg env call.arguments 2
        let (bag, b) := b.emit block (.getTupleField list LIST_BAG_INDEX)
        let (_cell, b) := b.emit block (.getTupleField list LIST_CELL_INDEX)
        let (first, b) := b.emit block (.bagGet bag)
        let (index, b) := b.emit block (.makeTuple [])
        let (argument, b) :=
          if closure_env_layout.isNone then
            b.emit block (.makeTuple [first, index])
          else
            b.emit block (.makeTuple [first, index, closure_env])
        let (_call, b) := b.emit block (.callOp specialization_id MOD_APP bytes argument)
        .ok b
      | .ListMap => do
        let list1 ← envGetArg env call.arguments 0
        let closure_env ← envGetArg env call.arguments 2
        let (bag1, b) := b.emit block (.getTupleField list1 LIST_BAG_INDEX)
        let (_cell1, b) := b.emit block (.getTupleField list1 LIST_CELL_INDEX)
        let (elem1, b) := b.emit block (.bagGet bag1)
        let (argument, b) :=
          if closure_env_layout.isNone then
            b.emit block (.makeTuple [elem1])
          else
            b.emit block (.makeTuple [elem1, closure_env])
        let (_call, b) := b.emit block (.callOp specialization_id MOD_APP bytes argument)
        .ok b
      | .ListSortWith => do
        let list1 ← envGetArg env call.arguments 0
        let closure_env ← envGetArg env call.arguments 2
        let (bag1, b) := b.emit block (.getTupleField list1 LIST_BAG_INDEX)
        let (_cell1, b) := b.emit block (.getTupleField list1 LIST_CELL_INDEX)
        let (elem1, b) := b.emit block (.bagGet bag1)
        let (argument, b) :=
          if closure_env_layout.isNone then
            b.emit block (.makeTuple [elem1, elem1])
          else
            b.emit block (.makeTuple [elem1, elem1, closure_env])
        let (_call, b) := b.emit block (.callOp specialization_id MOD_APP bytes argument)
        .ok b
      | .ListMap2 => do
        let list1 ← envGetArg env call.arguments 0
        let list2 ← envGetArg env call.arguments 1
        let closure_env ← envGetArg env call.arguments 3
        let (bag1, b) := b.emit block (.getTupleField list1 LIST_BAG_INDEX)
        let (_cell1, b) := b.emit block (.getTupleField list1 LIST_CELL_INDEX)
        let (elem1, b) := b.emit block (.bagGet bag1)
        let (bag2, b) := b.emit block (.getTupleField list2 LIST_BAG_INDEX)
        let (_cell2, b) := b.emit block (.getTupleField list2 LIST_CELL_INDEX)
        let (elem2, b) := b.emit block (.bagGet bag2)
        let (argument, b) :=
          if closure_env_layout.isNone then
            b.emit block (.makeTuple [elem1, elem2])
          else
            b.emit block (.makeTuple [elem1, elem2, closure_env])
        let (_call, b) := b.emit block (.callOp specialization_id MOD_APP bytes argument)
        .ok b
      | .ListMap3 => do
        let list1 ← envGetArg env call.arguments 0
        let list2 ← envGetArg env call.arguments 1
        let list3 ← envGetArg env call.arguments 2
        let closure_env ← envGetArg env call.arguments 4
        let (bag1, b) := b.emit block (.getTupleField list1 LIST_BAG_INDEX)
        let (_cell1, b) := b.emit block (.getTupleField list1 LIST_CELL_INDEX)
        let (elem1, b) := b.emit block (.bagGet bag1)
        let (bag2, b) := b.emit block (.getTupleField list2 LIST_BAG_INDEX)
        let (_cell2, b) := b.emit block (.getTupleField list2 LIST_CELL_INDEX)
        let (elem2, b) := b.emit block (.bagGet bag2)
        let (bag3, b) := b.emit block (.getTupleField list3 LIST_BAG_INDEX)
        let (_cell3, b) := b.emit block (.getTupleField list3 LIST_CELL_INDEX)
        let (elem3, b) := b.emit block (.bagGet bag3)
        let (argument, b) :=
          if closure_env_layout.isNone then
            b.emit block (.makeTuple [elem1, elem2, elem3])
          else
            b.emit block (.makeTuple [elem1, elem2, elem3, closure_env])
        let (_call, b) := b.emit block (.callOp specialization_id MOD_APP bytes argument)
        .ok b
      | .ListKeepIf | .ListKeepOks | .ListKeepErrs => do
        let list ← envGetArg env call.arguments 0
        let closure_env ← envGetArg env call.arguments 2
        let (bag, b) := b.emit block (.getTupleField list LIST_BAG_INDEX)
        let (first, b) := b.emit block (.bagGet bag)
        let (argument, b) :=
          if closure_env_layout.isNone then
            b.emit block (.makeTuple [first])
          else
            b.emit block (.makeTuple [first, closure_env])
        let (result, b) := b.emit block (.callOp specialization_id MOD_APP bytes argument)
        let unit := MTy.tuple []
        let (_sink, b) := b.emit block (.unknownWith [result] unit)
        .ok b
      | _ => do
        let (arg_value_id, b) ← build_tuple_value b env block []
        let (_call, b) := b.emit block (.callOp specialization_id MOD_APP bytes arg_value_id)
        .ok b
    let arguments := call.arguments.filterMap env.symbols
    let result_type := layout_spec layout
    .ok (b.emit block (.unknownWith arguments result_type))

/-- `expr_spec`. -/
def expr_spec (b : Builder) (env : Env) (block : BlockId) (layout : Layout)
    (expr : Expr) : Except Fault (ValueId × Builder) :=
  match expr with
  | .Literal literal => .ok (literal_spec b block literal)
  | .Call call => call_spec b env block layout call
  | .Reuse tag_layout tag_id arguments | .Tag tag_layout tag_id arguments =>
    (match tag_layout with
     | .NonRecursive _ => do
       let (value_id, b) ← build_tuple_value b env block arguments
       let variant_types ← build_variant_types tag_layout
       .ok (b.emit block (.makeUnion variant_types tag_id value_id))
     | _ => do
       let result_type := worst_case_type
       let (value_id, b) ← build_tuple_value b env block arguments
       .ok (b.emit block (.unknownWith [value_id] result_type)))
  | .Struct fields => build_tuple_value b env block fields
  | .UnionAtIndex structure_ tag_id union_layout index =>
    (match union_layout with
     | .NonRecursive _ => do
       let tag_value_id ← envGet env structure_
       let (tuple_value_id, b) := b.emit block (.unwrapUnion tag_value_id tag_id)
       .ok (b.emit block (.getTupleField tuple_value_id index))
     | _ => do
       let value_id ← envGet env structure_
       let result_type := layout_spec layout
       .ok (b.emit block (.unknownWith [value_id] result_type)))
  | .StructAtIndex index structure_ => do
    let value_id ← envGet env structure_
    .ok (b.emit block (.getTupleField value_id index))
  | .Array elem_layout elems => do
    let type_id := layout_spec elem_layout
    let (list, b) := new_list b block type_id
    let (bag0, b) := b.emit block (.getTupleField list LIST_BAG_INDEX)
    let (bag, b) ← elems.foldlM
      (fun (acc : ValueId × Builder) symbol => do
        let (bag, b) := acc
        let value_id ← envGet env symbol
        pure (b.emit block (.bagInsert bag value_id)))
      (bag0, b)
    let (cell, b) := b.emit block .newHeapCell
    .ok (b.emit block (.makeTuple [cell, bag]))
  | .EmptyArray =>
    (match listLayoutTryFrom layout with
     | .ok .EmptyList =>
       let type_id := MTy.tuple []
       .ok (new_list b block type_id)
     | .ok (.List element_layout) =>
       let type_id := layout_spec element_layout
       .ok (new_list b block type_id)
     | .error _ => .error .unreachableCase)
  | .Reset symbol => do
    let type_id := layout_spec layout
    let value_id ← envGet env symbol
    .ok (b.emit block (.unknownWith [value_id] type_id))
  | .RuntimeErrorFunction =>
    let type_id := layout_spec layout
    .ok (b.emit block (.terminate type_id))
  | .GetTagId => .ok (b.emit block (.makeTuple []))

/-- `stmt_spec`, written as a structural recursion on an explicit fuel.  Any
fuel of at least `sizeOf stmt` is sufficient (each recursive call consumes
one unit and descends to a strict subterm), so the `outOfFuel` branch models
nothing of the source and is unreachable for such fuels.  Two deliberate,
behaviour-preserving deviations from the source's shape, both forced by the
loop structure of the Rust: the source drains a `Let` chain with a `while
let` loop and removes all queued bindings after lowering the final
continuation, while this definition removes each binding as its level of the
chain returns — removals commute and emit nothing, so the emitted operations,
the result and the final environment coincide; and the source's `for` loop
over switch branches chained with the default branch is a left fold here.
The mutated `&mut Env` is threaded as an explicit result component. -/
def stmt_spec : Nat → Builder → Env → BlockId → Layout → Stmt →
    Except Fault (ValueId × Builder × Env)
  | 0, _, _, _, _, _ => .error .outOfFuel
  | fuel + 1, b, env, block, layout, stmt =>
    match stmt with
    | .Let symbol expr expr_layout continuation => do
      let (value_id, b) ← expr_spec b env block expr_layout expr
      let (result, b, env) ←
        stmt_spec fuel b (env.insertSymbol symbol value_id) block layout continuation
      .ok (result, b, env.removeSymbol symbol)
    | .Invoke symbol call call_layout pass fail => do
      let (value_id, b) ← call_spec b env block call_layout call
      let (pass_block, b) := b.addBlock
      let env := env.insertSymbol symbol value_id
      let (pass_value, b, env) ← stmt_spec fuel b env pass_block layout pass
      let env := env.removeSymbol symbol
      let (fail_block, b) := b.addBlock
      let (fail_value, b, env) ← stmt_spec fuel b env fail_block layout fail
      let (v, b) := b.emit block
        (.choice [(pass_block, pass_value), (fail_block, fail_value)])
      .ok (v, b, env)
    | .Switch branches default_branch => do
      let (cases, b, env) ← (branches ++ [default_branch]).foldlM
        (fun (acc : List (BlockId × ValueId) × Builder × Env) branch => do
          let (cases, b, env) := acc
          let (branch_block, b) := b.addBlock
          let (value_id, b, env) ← stmt_spec fuel b env branch_block layout branch
          pure (cases ++ [(branch_block, value_id)], b, env))
        ([], b, env)
      let (v, b) := b.emit block (.choice cases)
      .ok (v, b, env)
    | .Ret symbol => do
      let v ← envGet env symbol
      .ok (v, b, env)
    | .Refcounting modify_rc continuation =>
      (match modify_rc with
       | .Inc symbol _ => do
         let argument ← envGet env symbol
         let (_t, b) := b.emit block (.recursiveTouch argument)
         stmt_spec fuel b env block layout continuation
       | .Dec symbol => do
         let argument ← envGet env symbol
         let (_t, b) := b.emit block (.recursiveTouch argument)
         stmt_spec fuel b env block layout continuation
       | .DecRef symbol => do
         let argument ← envGet env symbol
         let (_t, b) := b.emit block (.recursiveTouch argument)
         stmt_spec fuel b env block layout continuation)
    | .Join id parameters body remainder => do
      let type_ids := parameters.map (fun p => layout_spec p.2)
      let ret_type_id := layout_spec layout
      let jp_arg_type_id := MTy.tuple type_ids
      let (jpid, jp_argument, b) :=
        b.declareContinuation block jp_arg_type_id ret_type_id
      let env := env.insertJoin id jpid
      let (cont_block, b) := b.addBlock
      let (cont_value, b, env) ← stmt_spec fuel b env cont_block layout remainder
      let (jp_body_block, b) := b.addBlock
      let (b, env, _n) := parameters.foldl
        (fun (acc : Builder × Env × Nat) p =>
          let (b, env, i) := acc
          let (value_id, b) := b.emit jp_body_block (.getTupleField jp_argument i)
          (b, env.insertSymbol p.1 value_id, i + 1))
        (b, env, 0)
      let (jp_body_value, b, env) ← stmt_spec fuel b env jp_body_block layout body
      let env := env.removeJoin id
      let b := b.defineContinuation jpid (jp_body_block, jp_body_value)
      let (v, b) := b.emit block (.subBlock (cont_block, cont_value))
      .ok (v, b, env)
    | .Jump id symbols => do
      let ret_type_id := layout_spec layout
      let (argument, b) ← build_tuple_value b env block symbols
      match env.join_points id with
      | none => .error (.undeclaredJoinPoint id)
      | some jpid =>
        let (v, b) := b.emit block (.jumpOp jpid argument ret_type_id)
        .ok (v, b, env)
    | .Resume | .RuntimeError =>
      let type_id := layout_spec layout
      let (v, b) := b.emit block (.terminate type_id)
      .ok (v, b, env)

/-- `crate::ir::Proc`: name, ordered `(layout, symbol)` arguments, return
layout and body. -/
structure Proc where
  name : Symbol
  args : List (Layout × Symbol)
  ret_layout : Layout
  body : Stmt

/-- `func_name_bytes`. -/
def func_name_bytes (proc : Proc) : List Nat :=
  func_name_bytes_help proc.name (proc.args.map Prod.fst) proc.ret_layout

/-- A built `FuncDef`: argument type, return type, root block expression and
the underlying builder state. -/
structure FuncDef where
  argType : MTy
  retType : MTy
  root : BlockId × ValueId
  builder : Builder

/-- A built `ConstDef`: type, root block expression and the underlying
builder state. -/
structure ConstDef where
  ty : MTy
  root : BlockId × ValueId
  builder : Builder

/-- `crate::ir::ProcLayout`. -/
structure ProcLayout where
  arguments : List Layout
  result : Layout

/-- `crate::ir::EntryPoint`. -/
structure EntryPoint where
  symbol : Symbol
  layout : ProcLayout

/-- `proc_spec`, with the fuel forwarded to `stmt_spec`. -/
def proc_spec (fuel : Nat) (proc : Proc) : Except Fault FuncDef := do
  let b := Builder.funcInit
  let env := Env.init
  let (block, b) := b.addBlock
  let (b, env, _n) := proc.args.foldl
    (fun (acc : Builder × Env × Nat) arg =>
      let (b, env, i) := acc
      let (value_id, b) := b.emit block (.getTupleField Builder.getArgument i)
      (b, env.insertSymbol arg.2 value_id, i + 1))
    (b, env, 0)
  let (value_id, b, _env) ← stmt_spec fuel b env block proc.ret_layout proc.body
  let arg_type_id := layout_spec (.Struct (proc.args.map Prod.fst))
  let ret_type_id := layout_spec proc.ret_layout
  .ok { argType := arg_type_id, retType := ret_type_id, root := (block, value_id),
        builder := b }

/-- `build_entry_point`. -/
def build_entry_point (layout : ProcLayout) (func_name : List Nat) : FuncDef :=
  let b := Builder.funcInit
  let (block, b) := b.addBlock
  let argument_type := build_tuple_type layout.arguments
  let (argument, b) := b.emit block (.unknownWith [] argument_type)
  let name_bytes := List.replicate 16 0
  let (result, b) := b.emit block (.callOp name_bytes MOD_APP func_name argument)
  let unit_type := MTy.tuple []
  let (unit_value, b) := b.emit block (.unknownWith [result] unit_type)
  { argType := unit_type, retType := unit_type, root := (block, unit_value),
    builder := b }

/-- The constant that models all static strings: a fresh heap cell wrapped in
a one-element tuple, typed by `str_type`. -/
def static_str_def : ConstDef :=
  let b := Builder.constInit
  let (block, b) := b.addBlock
  let (cell, b) := b.emit block .newHeapCell
  let (value_id, b) := b.emit block (.makeTuple [cell])
  { ty := str_type, root := (block, value_id), builder := b }

/-- The assembled module: named constants and named functions, in insertion
order. -/
structure ModDef where
  consts : List (List Nat × ConstDef)
  funcs : List (List Nat × FuncDef)

/-- `spec_program` up to the point where the assembled module is handed to
the external solver (`morphic_lib::solve` is an external collaborator and is
not modelled; the `DEBUG` printing is compiled out).  The fuel is forwarded
to every procedure's `stmt_spec`. -/
def spec_program (fuel : Nat) (entry_point : EntryPoint) (procs : List Proc) :
    Except Fault ModDef := do
  let roc_main_bytes :=
    func_name_bytes_help entry_point.symbol entry_point.layout.arguments
      entry_point.layout.result
  let entry_point_function := build_entry_point entry_point.layout roc_main_bytes
  let proc_defs ← procs.mapM (fun proc => do
    let spec ← proc_spec fuel proc
    pure (func_name_bytes proc, spec))
  .ok { consts := [(STATIC_STR_NAME, static_str_def)],
        funcs := (ENTRY_POINT_NAME, entry_point_function) :: proc_defs }

/-- Count the operations of a log satisfying a predicate. -/
def countOp (ops : List (BlockId × Op)) (p : Op → Bool) : Nat :=
  (ops.filter (fun e => p e.2)).length

/-- Is the operation a fresh-heap-cell allocation? -/
def Op.isNewHeapCell : Op → Bool
  | .newHeapCell => true
  | _ => false

/-- Is the operation a bag insertion? -/
def Op.isBagInsert : Op → Bool
  | .bagInsert _ _ => true
  | _ => false

/-- Is the operation a representative-element draw from a bag? -/
def Op.isBagGet : Op → Bool
  | .bagGet _ => true
  | _ => false

/-- Is the operation a cell-update registration? -/
def Op.isUpdate : Op → Bool
  | .update _ _ => true
  | _ => false

/-- Is the operation an emitted call? -/
def Op.isCallOp : Op → Bool
  | .callOp _ _ _ _ => true
  | _ => false

/-- Is the operation a choice? -/
def Op.isChoice : Op → Bool
  | .choice _ => true
  | _ => false

/-- Is the operation a terminate? -/
def Op.isTerminate : Op → Bool
  | .terminate _ => true
  | _ => false

/-- Is the operation a recursive touch? -/
def Op.isRecursiveTouch : Op → Bool
  | .recursiveTouch _ => true
  | _ => false

/-- The operation log of a lowering result (empty on a fault). -/
def exOps : Except Fault (ValueId × Builder × Env) → List (BlockId × Op)
  | .ok (_, b, _) => b.ops
  | .error _ => []

/-- The result value of a lowering result. -/
def exVal : Except Fault (ValueId × Builder × Env) → Option ValueId
  | .ok (v, _, _) => some v
  | .error _ => none

/-- The final binding of a symbol in a lowering result's environment. -/
def exSym (r : Except Fault (ValueId × Builder × Env)) (s : Symbol) : Option ValueId :=
  match r with
  | .ok (_, _, env) => env.symbols s
  | .error _ => none

/-- The final binding of a join-point id in a lowering result's
environment. -/
def exJoin (r : Except Fault (ValueId × Builder × Env)) (id : Nat) : Option ContId :=
  match r with
  | .ok (_, _, env) => env.join_points id
  | .error _ => none

/-- The symbols bound by the `Let` chain a statement starts with. -/
def letBound : Stmt → List Symbol
  | .Let symbol _ _ continuation => symbol :: letBound continuation
  | _ => []

/-- All symbols of a list are bound (in scope). -/
def AllIn (symbols : List Symbol) (vars : List Symbol) : Prop :=
  ∀ s ∈ symbols, s ∈ vars

/-- `arguments[i]` exists and is bound. -/
def ArgRead (vars : List Symbol) (arguments : List Symbol) (i : Nat) : Prop :=
  ∃ s, arguments[i]? = some s ∧ s ∈ vars

/-- `arguments[i]` exists (the callback-identity slot need not be bound). -/
def ArgAt (arguments : List Symbol) (i : Nat) : Prop :=
  ∃ s, arguments[i]? = some s

/-- Well-formedness of a low-level call: every variable the op-specific
policy reads is in scope, every slice index it takes exists, and the
`DictEmpty` shape precondition on the layout holds. -/
def WfLowLevel (vars : List Symbol) (layout : Layout) (op : LowLevel)
    (arguments : List Symbol) : Prop :=
  match op with
  | .NumAdd | .NumSub | .NumToFloat | .Eq | .NotEq
  | .NumLte | .NumLt | .NumGt | .NumGte | .NumCompare
  | .ListLen | .DictSize => True
  | .ListGetUnsafe => ArgRead vars arguments 0
  | .ListSet => ArgRead vars arguments 0 ∧ ArgRead vars arguments 2
  | .ListAppend => ArgRead vars arguments 0 ∧ ArgRead vars arguments 1
  | .DictEmpty =>
    layout = .Builtin .EmptyDict ∨
      ∃ key_layout value_layout, layout = .Builtin (.Dict key_layout value_layout)
  | .DictGetUnsafe => ArgRead vars arguments 0 ∧ ArgRead vars arguments 1
  | .DictInsert =>
    ArgRead vars arguments 0 ∧ ArgRead vars arguments 1 ∧ ArgRead vars arguments 2
  | _ => AllIn arguments vars

/-- Well-formedness of a higher-order call: the opcode is one of the
recognized traversal ops, its callback-identity slot exists, and the
collection / default / closure-environment slots it reads are in scope. -/
def WfHigherOrder (vars : List Symbol) (op : LowLevel) (arguments : List Symbol) : Prop :=
  match op with
  | .ListMap | .ListMapWithIndex =>
    ArgAt arguments 1 ∧ ArgRead vars arguments 0 ∧ ArgRead vars arguments 2
  | .ListMap2 =>
    ArgAt arguments 2 ∧ ArgRead vars arguments 0 ∧ ArgRead vars arguments 1 ∧
      ArgRead vars arguments 3
  | .ListMap3 =>
    ArgAt arguments 3 ∧ ArgRead vars arguments 0 ∧ ArgRead vars arguments 1 ∧
      ArgRead vars arguments 2 ∧ ArgRead vars arguments 4
  | .ListWalk | .ListWalkUntil | .ListWalkBackwards | .DictWalk =>
    ArgAt arguments 2 ∧ ArgRead vars arguments 0 ∧ ArgRead vars arguments 1 ∧
      ArgRead vars arguments 3
  | .ListKeepIf | .ListKeepOks | .ListKeepErrs =>
    ArgAt arguments 1 ∧ ArgRead vars arguments 0 ∧ ArgRead vars arguments 2
  | .ListSortWith =>
    ArgAt arguments 1 ∧ ArgRead vars arguments 0 ∧ ArgRead vars arguments 2
  | _ => False

/-- Well-formedness of a call. -/
def WfCall (vars : List Symbol) (layout : Layout) (call : Call) : Prop :=
  match call.call_type with
  | .ByName _ _ _ _ => AllIn call.arguments vars
  | .Foreign _ _ => AllIn call.arguments vars
  | .LowLevelCall op _ => WfLowLevel vars layout op call.arguments
  | .HigherOrderLowLevel _ _ op _ _ => WfHigherOrder vars op call.arguments

/-- Well-formedness of an expression against the scope and its declared
layout. -/
def WfExpr (vars : List Symbol) (layout : Layout) : Expr → Prop
  | .Literal _ => True
  | .Call call => WfCall vars layout call
  | .Tag _ _ arguments => AllIn arguments vars
  | .Reuse _ _ arguments => AllIn arguments vars
  | .Struct fields => AllIn fields vars
  | .UnionAtIndex structure_ _ _ _ => structure_ ∈ vars
  | .StructAtIndex _ structure_ => structure_ ∈ vars
  | .Array _ elems => AllIn elems vars
  | .EmptyArray =>
    layout = .Builtin .EmptyList ∨
      ∃ element_layout, layout = .Builtin (.List element_layout)
  | .Reset symbol => symbol ∈ vars
  | .RuntimeErrorFunction => True
  | .GetTagId => True

/-- Strengthened well-formedness of a statement: every read variable is in
scope and every jumped-to join id is declared, and additionally every
`Let`/`Invoke` binder and every join id is fresh for the live scope (the
environment maps are deleted from, not restored, so a shadowed live binding
would be destroyed), and every expression satisfies its layout-shape
preconditions. -/
inductive WfS : List Symbol → List Nat → Stmt → Prop where
  | wlet {vars joins symbol expr expr_layout continuation} :
      WfExpr vars expr_layout expr → symbol ∉ vars →
      WfS (symbol :: vars) joins continuation →
      WfS vars joins (.Let symbol expr expr_layout continuation)
  | winvoke {vars joins symbol call call_layout pass fail} :
      WfCall vars call_layout call → symbol ∉ vars →
      WfS (symbol :: vars) joins pass → WfS vars joins fail →
      WfS vars joins (.Invoke symbol call call_layout pass fail)
  | wswitch {vars joins branches default_branch} :
      (∀ branch ∈ branches, WfS vars joins branch) →
      WfS vars joins default_branch →
      WfS vars joins (.Switch branches default_branch)
  | wret {vars joins symbol} : symbol ∈ vars → WfS vars joins (.Ret symbol)
  | wrc {vars joins modify_rc continuation} :
      modify_rc.symbol ∈ vars → WfS vars joins continuation →
      WfS vars joins (.Refcounting modify_rc continuation)
  | wjoin {vars joins id parameters body remainder} :
      id ∉ joins →
      WfS vars (id :: joins) remainder →
      WfS (parameters.map Prod.fst ++ vars) (id :: joins) body →
      WfS vars joins (.Join id parameters body remainder)
  | wjump {vars joins id symbols} :
      id ∈ joins → AllIn symbols vars → WfS vars joins (.Jump id symbols)
  | wresume {vars joins} : WfS vars joins .Resume
  | werror {vars joins} : WfS vars joins .RuntimeError

/-- Every listed variable is bound in the environment. -/
def EnvDomOk (vars : List Symbol) (env : Env) : Prop :=
  ∀ s ∈ vars, (env.symbols s).isSome

/-- Every listed join id is declared in the environment. -/
def JoinDomOk (joins : List Nat) (env : Env) : Prop :=
  ∀ j ∈ joins, (env.join_points j).isSome

/-- Is the type a tuple type?  (A "cell paired with bag" type would be a
two-field tuple.) -/
def MTy.isTuple : MTy → Bool
  | .tuple _ => true
  | _ => false

/-- Did the lowering complete without a fault? -/
def exIsOk : Except Fault (ValueId × Builder × Env) → Bool
  | .ok _ => true
  | .error _ => false

/-- The 64-bit integer layout. -/
def int64L : Layout := .Builtin .Int64

/-- The layout of a list of 64-bit integers. -/
def listInt64L : Layout := .Builtin (.List int64L)

/-- A function builder with its entry block (block 0) already allocated, as
`proc_spec` sets one up. -/
def scenarioBuilder : Builder := (Builder.funcInit.addBlock).2

/-- Scenario B's body: build a list from the three element variables 1, 2, 3,
then append variable 4 via the `ListAppend` low-level op with update-mode
token `um`, and return the appended list. -/
def scenarioAppendBody (um : List Nat) : Stmt :=
  .Let 10 (.Array int64L [1, 2, 3]) listInt64L
    (.Let 11 (.Call (.mk (.LowLevelCall .ListAppend um) [10, 4])) listInt64L
      (.Ret 11))

/-- Scenario B's environment: the four element variables bound to the
argument handles 100-103. -/
def scenarioAppendEnv : Env :=
  (((Env.init.insertSymbol 1 100).insertSymbol 2 101).insertSymbol 3 102).insertSymbol 4 103

/-- Scenario B, lowered. -/
def scenarioAppendRun (um : List Nat) : Except Fault (ValueId × Builder × Env) :=
  stmt_spec 20 scenarioBuilder scenarioAppendEnv 0 listInt64L (scenarioAppendBody um)

/-- A join-point statement: join 0 declares parameter 5 and returns it; the
remainder jumps to it with the outer variable 1. -/
def scenarioJoinRun : Except Fault (ValueId × Builder × Env) :=
  stmt_spec 20 scenarioBuilder (Env.init.insertSymbol 1 50) 0 int64L
    (.Join 0 [(5, int64L)] (.Ret 5) (.Jump 0 [1]))

/-- A `DictEmpty` low-level call bound at a non-dictionary layout: every read
variable is bound and no jump occurs, yet the lowering hits the
`unreachable!` shape check. -/
def scenarioDictEmptyRun : Except Fault (ValueId × Builder × Env) :=
  stmt_spec 20 scenarioBuilder Env.init 0 int64L
    (.Let 5 (.Call (.mk (.LowLevelCall .DictEmpty [0]) [])) int64L (.Ret 5))

/-- A fallible call whose success branch shadows the outer variable 1 with a
`Let`, and whose failure branch then reads variable 1. -/
def scenarioShadowRun : Except Fault (ValueId × Builder × Env) :=
  stmt_spec 20 scenarioBuilder (Env.init.insertSymbol 1 100) 0 int64L
    (.Invoke 2 (.mk (.Foreign [] int64L) []) int64L
      (.Let 1 (.Literal (.Int 0)) int64L (.Ret 2))
      (.Ret 1))

/-- A `Let` chain rebinding the already-bound variable 1. -/
def scenarioLetShadowRun : Except Fault (ValueId × Builder × Env) :=
  stmt_spec 20 scenarioBuilder (Env.init.insertSymbol 1 100) 0 int64L
    (.Let 1 (.Literal (.Int 0)) int64L (.Ret 1))

/-- A minimal entry point (no arguments). -/
def entryPoint0 : EntryPoint := ⟨0, ⟨[], int64L⟩⟩

theorem except_bind_ok {α β : Type} {x : Except Fault α} {f : α → Except Fault β} {r : β} :
    (x >>= f) = .ok r ↔ ∃ a, x = .ok a ∧ f a = .ok r := by
  cases x <;> simp [Bind.bind, Except.bind]

/-- C3: `func_name_bytes_help` is a pure function of the symbol, the ordered
argument layouts and the return layout (it is a Lean function of exactly
those three inputs, so equal inputs give equal keys definitionally); the key
is the symbol's 8 native bytes followed by the 8 bytes of a hash over the
ordered argument layouts then the return layout, 16 bytes in total; and a
closure-typed argument or return layout contributes only its lambda set's
runtime representation, so two closures differing in captured-environment
identity (or any other field) but sharing a representation yield the same
key. -/
theorem c3_func_name_key :
    (∀ symbol args ret,
      func_name_bytes_help symbol args ret =
        toNeBytes8 symbol ++ toNeBytes8 (layout_signature_hash args ret) ∧
      (func_name_bytes_help symbol args ret).length = 16) ∧
    (∀ symbol pre post ret a1 c1 rep r1 a2 c2 r2,
      func_name_bytes_help symbol (pre ++ .Closure a1 c1 rep r1 :: post) ret =
        func_name_bytes_help symbol (pre ++ .Closure a2 c2 rep r2 :: post) ret) ∧
    (∀ symbol args a1 c1 rep r1 a2 c2 r2,
      func_name_bytes_help symbol args (.Closure a1 c1 rep r1) =
        func_name_bytes_help symbol args (.Closure a2 c2 rep r2)) := by
  refine ⟨fun symbol args ret => ⟨rfl, by simp [func_name_bytes_help, toNeBytes8]⟩, ?_, ?_⟩
  · intro symbol pre post ret a1 c1 rep r1 a2 c2 r2
    simp [func_name_bytes_help, layout_signature_hash, List.foldl_append]
  · intro symbol args a1 c1 rep r1 a2 c2 r2
    simp [func_name_bytes_help, layout_signature_hash]

/-- C5: lowering `NumAdd` or `NumSub` appends exactly four operations: a
fresh unit value (`make_tuple []`) in one fresh block, a terminate typed by
the result layout in a second fresh block, exactly one choice over exactly
those two outcome blocks in a third, and the sub-block reference in the
current block; both opcodes lower identically. -/
theorem c5_fallible_arithmetic (b : Builder) (env : Env) (block : BlockId)
    (layout : Layout) (um : List Nat) (args : List Symbol) :
    lowlevel_spec b env block layout .NumAdd um args =
      .ok (b.nextValue + 3,
        { ops := b.ops ++
            [(b.nextBlock, .makeTuple []),
             (b.nextBlock + 1, .terminate (layout_spec layout)),
             (b.nextBlock + 2,
              .choice [(b.nextBlock, b.nextValue), (b.nextBlock + 1, b.nextValue + 1)]),
             (block, .subBlock (b.nextBlock + 2, b.nextValue + 2))],
          contDefs := b.contDefs, nextValue := b.nextValue + 4,
          nextBlock := b.nextBlock + 3, nextCont := b.nextCont }) ∧
    lowlevel_spec b env block layout .NumSub um args =
      lowlevel_spec b env block layout .NumAdd um args ∧
    countOp
      [(b.nextBlock, .makeTuple []),
       (b.nextBlock + 1, .terminate (layout_spec layout)),
       (b.nextBlock + 2,
        .choice [(b.nextBlock, b.nextValue), (b.nextBlock + 1, b.nextValue + 1)]),
       (block, .subBlock (b.nextBlock + 2, b.nextValue + 2))] Op.isChoice = 1 ∧
    countOp
      [(b.nextBlock, .makeTuple []),
       (b.nextBlock + 1, .terminate (layout_spec layout)),
       (b.nextBlock + 2,
        .choice [(b.nextBlock, b.nextValue), (b.nextBlock + 1, b.nextValue + 1)]),
       (block, .subBlock (b.nextBlock + 2, b.nextValue + 2))] Op.isTerminate = 1 := by
  refine ⟨?_, ?_, ?_, ?_⟩
  · simp [lowlevel_spec, Builder.emit, Builder.addBlock, new_num, List.append_assoc]
  · simp [lowlevel_spec, Builder.emit, Builder.addBlock, new_num, List.append_assoc]
  · simp [countOp, Op.isChoice, List.filter]
  · simp [countOp, Op.isTerminate, List.filter]

/-- C6 counterexample: the common worst-case type of every recursive shape is
a bag of heap-cell elements, not a heap-cell token *paired* with a bag (a
pair would be a tuple type, as the list/dict types are). -/
theorem c6_counterexample :
    layout_spec (.Union (.Recursive [])) = MTy.bag MTy.heapCell ∧
    MTy.isTuple (layout_spec (.Union (.Recursive []))) = false := by
  constructor
  · simp [layout_spec, worst_case_type]
  · simp [layout_spec, worst_case_type, MTy.isTuple]

/-- C6 amended: every recursive union shape — plain recursive,
non-nullable-unwrapped, nullable-wrapped, nullable-unwrapped — and the raw
recursive back-reference layout are mapped by `layout_spec` to one identical
worst-case type; that type is a bag whose element type is a heap-cell token
(not a (cell, bag) pair). -/
theorem c6_recursive_worst_case (tags fields : List (List Layout))
    (flds : List Layout) (nid : Nat) (nid2 : Bool) (ofields : List Layout) :
    layout_spec (.Union (.Recursive tags)) = worst_case_type ∧
    layout_spec (.Union (.NonNullableUnwrapped flds)) = worst_case_type ∧
    layout_spec (.Union (.NullableWrapped nid fields)) = worst_case_type ∧
    layout_spec (.Union (.NullableUnwrapped nid2 ofields)) = worst_case_type ∧
    layout_spec .RecursivePointer = worst_case_type ∧
    worst_case_type = MTy.bag MTy.heapCell := by
  refine ⟨?_, ?_, ?_, ?_, ?_, rfl⟩ <;> simp [layout_spec]

theorem stmt_spec_letBound_none :
    ∀ (fuel : Nat) (b : Builder) (env : Env) (block : BlockId) (layout : Layout)
      (stmt : Stmt) (v : ValueId) (b' : Builder) (env' : Env),
    stmt_spec fuel b env block layout stmt = .ok (v, b', env') →
    ∀ s ∈ letBound stmt, env'.symbols s = none := by
  intro fuel
  induction fuel with
  | zero =>
    intro b env block layout stmt v b' env' h
    simp [stmt_spec] at h
  | succ n ih =>
    intro b env block layout stmt v b' env' h s hs
    cases stmt with
    | Let symbol expr expr_layout continuation =>
      simp only [stmt_spec] at h
      rw [except_bind_ok] at h
      obtain ⟨⟨value_id, b1⟩, -, h⟩ := h
      rw [except_bind_ok] at h
      obtain ⟨⟨result, b2, env2⟩, h2, h⟩ := h
      simp only [Except.ok.injEq, Prod.mk.injEq] at h
      obtain ⟨-, -, henv⟩ := h
      subst henv
      simp only [letBound, List.mem_cons] at hs
      rcases hs with rfl | hs
      · simp [Env.removeSymbol]
      · have := ih _ _ _ _ _ _ _ _ h2 s hs
        simp [Env.removeSymbol, this]
    | Invoke a c cl p f => simp [letBound] at hs
    | Switch bs d => simp [letBound] at hs
    | Ret a => simp [letBound] at hs
    | Refcounting m c => simp [letBound] at hs
    | Join a p bo r => simp [letBound] at hs
    | Jump a ss => simp [letBound] at hs
    | Resume => simp [letBound] at hs
    | RuntimeError => simp [letBound] at hs

theorem stmt_spec_join_id_removed :
    ∀ (fuel : Nat) (b : Builder) (env : Env) (block : BlockId) (layout : Layout)
      (id : Nat) (parameters : List (Symbol × Layout)) (body remainder : Stmt)
      (v : ValueId) (b' : Builder) (env' : Env),
    stmt_spec fuel b env block layout (.Join id parameters body remainder) =
      .ok (v, b', env') →
    env'.join_points id = none := by
  intro fuel b env block layout id parameters body remainder v b' env' h
  cases fuel with
  | zero => simp [stmt_spec] at h
  | succ n =>
    simp only [stmt_spec] at h
    rw [except_bind_ok] at h
    obtain ⟨⟨cv, b1, env1⟩, -, h⟩ := h
    rw [except_bind_ok] at h
    obtain ⟨⟨bv, b2, env2⟩, -, h⟩ := h
    simp only [Except.ok.injEq, Prod.mk.injEq] at h
    obtain ⟨-, -, henv⟩ := h
    subst henv
    simp [Env.removeJoin]

/-- C8: the three refcount statement kinds lower identically — for every
fuel, builder, environment, block, layout, variable and continuation, the
`Inc`, `Dec` and `DecRef` lowerings are equal — and each looks up the
variable's handle, emits exactly one recursive touch on it, and then lowers
the continuation in the same block. -/
theorem c8_refcount_identical :
    ∀ (fuel : Nat) (b : Builder) (env : Env) (block : BlockId) (layout : Layout)
      (symbol : Symbol) (k : Nat) (continuation : Stmt),
    (stmt_spec fuel b env block layout (.Refcounting (.Inc symbol k) continuation) =
       stmt_spec fuel b env block layout (.Refcounting (.Dec symbol) continuation) ∧
     stmt_spec fuel b env block layout (.Refcounting (.Dec symbol) continuation) =
       stmt_spec fuel b env block layout (.Refcounting (.DecRef symbol) continuation)) ∧
    (∀ v, env.symbols symbol = some v →
      stmt_spec (fuel + 1) b env block layout (.Refcounting (.Inc symbol k) continuation) =
        stmt_spec fuel (b.emit block (.recursiveTouch v)).2 env block layout continuation) := by
  intro fuel b env block layout symbol k continuation
  refine ⟨⟨?_, ?_⟩, ?_⟩
  · cases fuel with
    | zero => rfl
    | succ n => simp [stmt_spec]
  · cases fuel with
    | zero => rfl
    | succ n => simp [stmt_spec]
  · intro v hv
    simp [stmt_spec, envGet, hv, Builder.emit, Bind.bind, Except.bind]

theorem c8_refcount_identical_witness :
    stmt_spec 2 scenarioBuilder (Env.init.insertSymbol 1 7) 0 int64L
        (.Refcounting (.Inc 1 3) (.Ret 1)) =
      stmt_spec 1 (scenarioBuilder.emit 0 (.recursiveTouch 7)).2
        (Env.init.insertSymbol 1 7) 0 int64L (.Ret 1) ∧
    stmt_spec 2 scenarioBuilder (Env.init.insertSymbol 1 7) 0 int64L
        (.Refcounting (.Inc 1 3) (.Ret 1)) =
      stmt_spec 2 scenarioBuilder (Env.init.insertSymbol 1 7) 0 int64L
        (.Refcounting (.Dec 1) (.Ret 1)) := by
  constructor
  · exact (c8_refcount_identical 1 scenarioBuilder (Env.init.insertSymbol 1 7) 0 int64L
      1 3 (.Ret 1)).2 7 (by simp [Env.insertSymbol, Env.init])
  · exact ((c8_refcount_identical 2 scenarioBuilder (Env.init.insertSymbol 1 7) 0 int64L
      1 3 (.Ret 1)).1).1

/-- C1 counterexample: lowering scenario B's body emits exactly *two*
fresh-heap-cell allocations, not one — `expr_spec` on an `Array` expression
allocates one cell inside `new_list` and then a second, separate cell that is
the one actually paired with the final bag (see `c1_scenario_append`
for the full operation log). -/
theorem c1_counterexample :
    countOp (exOps (scenarioAppendRun [7])) Op.isNewHeapCell = 2 := by
  simp [scenarioAppendRun, scenarioAppendBody, scenarioAppendEnv, scenarioBuilder,
    stmt_spec, expr_spec, lowlevel_spec, call_spec, envGet, envGetArg, argGet,
    Env.insertSymbol, Env.removeSymbol, Env.init, Builder.emit, Builder.addBlock,
    Builder.funcInit, new_list, exOps, exVal, layout_spec, builtin_spec,
    LIST_BAG_INDEX, LIST_CELL_INDEX, Call.arguments, Call.call_type,
    int64L, listInt64L, Except.bind, Except.pure, Bind.bind, Pure.pure,
    Except.instMonad, countOp, Op.isNewHeapCell]

/-- C1 amended: lowering a body that builds a 3-element list (an `Array`
expression) and appends a 4th element (a `ListAppend` low-level op) emits
exactly this operation log: *two* fresh-heap-cell allocations (the cell made
inside `new_list` is superseded; a second fresh cell is the one paired with
the final bag), four bag insertions, and exactly one cell-update
registration, tagged with the append's update-mode token `um`; the appended
values are the three element handles (100-102) and then the fourth (103);
and the final returned value is handle 9 — the `make_tuple [8, 7]` value
produced by the `Array` construction — i.e. the append's result is the very
collection handle of its list argument.  (Values are numbered consecutively
from 1 in emission order, so handle 9 names the ninth emitted operation.) -/
theorem c1_scenario_append (um : List Nat) :
    exOps (scenarioAppendRun um) =
      [(0, .newHeapCell), (0, .emptyBag (MTy.tuple [])), (0, .makeTuple [1, 2]),
       (0, .getTupleField 3 1), (0, .bagInsert 4 100), (0, .bagInsert 5 101),
       (0, .bagInsert 6 102), (0, .newHeapCell), (0, .makeTuple [8, 7]),
       (0, .getTupleField 9 1), (0, .getTupleField 9 0), (0, .update um 11),
       (0, .bagInsert 10 103)] ∧
    countOp (exOps (scenarioAppendRun um)) Op.isBagInsert = 4 ∧
    (exOps (scenarioAppendRun um)).filter (fun e => e.2.isUpdate) = [(0, .update um 11)] ∧
    exVal (scenarioAppendRun um) = some 9 := by
  refine ⟨?_, ?_, ?_, ?_⟩ <;>
    simp [scenarioAppendRun, scenarioAppendBody, scenarioAppendEnv, scenarioBuilder,
      stmt_spec, expr_spec, lowlevel_spec, call_spec, envGet, envGetArg, argGet,
      Env.insertSymbol, Env.removeSymbol, Env.init, Builder.emit, Builder.addBlock,
      Builder.funcInit, new_list, exOps, exVal, layout_spec, builtin_spec,
      LIST_BAG_INDEX, LIST_CELL_INDEX, Call.arguments, Call.call_type,
      int64L, listInt64L, Except.bind, Except.pure, Bind.bind, Pure.pure,
      Except.instMonad, countOp, Op.isBagInsert, Op.isUpdate]

/-- C2 counterexample: after lowering a join-point statement, the join's
declared parameter (symbol 5) is still visible in the variable environment —
it is bound to the handle unpacked from the continuation argument (value 4) —
because `stmt_spec`'s `Join` arm inserts the parameters before lowering the
body but never removes them. -/
theorem c2_counterexample : exSym scenarioJoinRun 5 = some 4 := by
  simp [scenarioJoinRun, scenarioBuilder, stmt_spec, expr_spec, envGet,
    build_tuple_value, List.mapM, List.mapM.loop, Env.insertSymbol, Env.removeSymbol, Env.insertJoin,
    Env.removeJoin, Env.init, Builder.emit, Builder.addBlock, Builder.funcInit,
    Builder.declareContinuation, Builder.defineContinuation, exSym, layout_spec,
    builtin_spec, int64L, Except.bind, Except.pure, Bind.bind, Pure.pure,
    Except.instMonad]

/-- C2 amended: after `stmt_spec` finishes a `Let` chain, every symbol the
chain bound has been removed from the variable environment; after a
join-point statement, the join id has been removed from the join-point
environment; but the join's declared parameters are *not* removed from the
variable environment — concretely, parameter 5 of `scenarioJoinRun` is still
bound afterwards. -/
theorem c2_scope_discipline :
    (∀ (fuel : Nat) (b : Builder) (env : Env) (block : BlockId) (layout : Layout)
       (stmt : Stmt) (v : ValueId) (b' : Builder) (env' : Env),
      stmt_spec fuel b env block layout stmt = .ok (v, b', env') →
      ∀ s ∈ letBound stmt, env'.symbols s = none) ∧
    (∀ (fuel : Nat) (b : Builder) (env : Env) (block : BlockId) (layout : Layout)
       (id : Nat) (parameters : List (Symbol × Layout)) (body remainder : Stmt)
       (v : ValueId) (b' : Builder) (env' : Env),
      stmt_spec fuel b env block layout (.Join id parameters body remainder) =
        .ok (v, b', env') →
      env'.join_points id = none) ∧
    exSym scenarioJoinRun 5 = some 4 := by
  refine ⟨stmt_spec_letBound_none, stmt_spec_join_id_removed, ?_⟩
  simp [scenarioJoinRun, scenarioBuilder, stmt_spec, expr_spec, envGet,
    build_tuple_value, List.mapM, List.mapM.loop, Env.insertSymbol, Env.removeSymbol, Env.insertJoin,
    Env.removeJoin, Env.init, Builder.emit, Builder.addBlock, Builder.funcInit,
    Builder.declareContinuation, Builder.defineContinuation, exSym, layout_spec,
    builtin_spec, int64L, Except.bind, Except.pure, Bind.bind, Pure.pure,
    Except.instMonad]

theorem c2_scope_discipline_witness :
    exSym (scenarioAppendRun [7]) 10 = none ∧
    exSym (scenarioAppendRun [7]) 11 = none ∧
    exJoin scenarioJoinRun 0 = none := by
  have hok : exIsOk (scenarioAppendRun [7]) = true := by
    simp [scenarioAppendRun, scenarioAppendBody, scenarioAppendEnv, scenarioBuilder,
      stmt_spec, expr_spec, lowlevel_spec, call_spec, envGet, envGetArg, argGet,
      Env.insertSymbol, Env.removeSymbol, Env.init, Builder.emit, Builder.addBlock,
      Builder.funcInit, new_list, exIsOk, layout_spec, builtin_spec,
      LIST_BAG_INDEX, LIST_CELL_INDEX, Call.arguments, Call.call_type,
      int64L, listInt64L, Except.bind, Except.pure, Bind.bind, Pure.pure,
      Except.instMonad]
  have hok2 : exIsOk scenarioJoinRun = true := by
    simp [scenarioJoinRun, scenarioBuilder, stmt_spec, expr_spec, envGet,
      build_tuple_value, List.mapM, List.mapM.loop, Env.insertSymbol, Env.removeSymbol, Env.insertJoin,
      Env.removeJoin, Env.init, Builder.emit, Builder.addBlock, Builder.funcInit,
      Builder.declareContinuation, Builder.defineContinuation, exIsOk, layout_spec,
      builtin_spec, int64L, Except.bind, Except.pure, Bind.bind, Pure.pure,
      Except.instMonad]
  refine ⟨?_, ?_, ?_⟩
  · cases h : scenarioAppendRun [7] with
    | ok r =>
      have h10 := c2_scope_discipline.1 20 scenarioBuilder scenarioAppendEnv 0 listInt64L
        (scenarioAppendBody [7]) r.1 r.2.1 r.2.2 (by rw [← h]; rfl) 10 (by simp [letBound, scenarioAppendBody])
      simp [exSym, h, h10]
    | error e => rw [h] at hok; simp [exIsOk] at hok
  · cases h : scenarioAppendRun [7] with
    | ok r =>
      have h11 := c2_scope_discipline.1 20 scenarioBuilder scenarioAppendEnv 0 listInt64L
        (scenarioAppendBody [7]) r.1 r.2.1 r.2.2 (by rw [← h]; rfl) 11 (by simp [letBound, scenarioAppendBody])
      simp [exSym, h, h11]
    | error e => rw [h] at hok; simp [exIsOk] at hok
  · cases h : scenarioJoinRun with
    | ok r =>
      have hj := c2_scope_discipline.2.1 20 scenarioBuilder (Env.init.insertSymbol 1 50) 0
        int64L 0 [(5, int64L)] (.Ret 5) (.Jump 0 [1]) r.1 r.2.1 r.2.2 (by rw [← h]; rfl)
      simp [exJoin, h, hj]
    | error e => rw [h] at hok2; simp [exIsOk] at hok2

/-- C10: a `Let` that rebinds an already-bound symbol removes the symbol from
the environment entirely when its scope finishes — the outer (shadowed)
binding is not restored — and a subsequent read of that symbol in the
enclosing scope faults: in `scenarioShadowRun` the fallible call's success
branch shadows variable 1 (bound to handle 100) with a `Let`, after which the
failure branch's `Ret 1` panics with an unbound-symbol fault instead of
seeing handle 100. -/
theorem c10_shadowed_binding_destroyed :
    (∀ (fuel : Nat) (b : Builder) (env : Env) (block : BlockId) (layout : Layout)
       (symbol : Symbol) (expr : Expr) (expr_layout : Layout) (continuation : Stmt)
       (v0 v : ValueId) (b' : Builder) (env' : Env),
      env.symbols symbol = some v0 →
      stmt_spec fuel b env block layout (.Let symbol expr expr_layout continuation) =
        .ok (v, b', env') →
      env'.symbols symbol = none) ∧
    scenarioShadowRun = .error (.unboundSymbol 1) := by
  constructor
  · intro fuel b env block layout symbol expr expr_layout continuation v0 v b' env' _h0 h
    exact stmt_spec_letBound_none fuel b env block layout _ v b' env' h symbol
      (by simp [letBound])
  · simp [scenarioShadowRun, scenarioBuilder, stmt_spec, expr_spec, call_spec,
      literal_spec, envGet, List.mapM, List.mapM.loop, Env.insertSymbol,
      Env.removeSymbol, Env.init, Builder.emit, Builder.addBlock, Builder.funcInit,
      layout_spec, builtin_spec, int64L, Call.arguments, Call.call_type,
      Except.bind, Except.pure, Bind.bind, Pure.pure, Except.instMonad]

theorem c10_shadowed_binding_destroyed_witness :
    exSym scenarioLetShadowRun 1 = none := by
  have hok : exIsOk scenarioLetShadowRun = true := by
    simp [scenarioLetShadowRun, scenarioBuilder, stmt_spec, expr_spec, literal_spec,
      envGet, Env.insertSymbol, Env.removeSymbol, Env.init, Builder.emit,
      Builder.addBlock, Builder.funcInit, exIsOk, layout_spec, builtin_spec, int64L,
      Except.bind, Except.pure, Bind.bind, Pure.pure, Except.instMonad]
  cases h : scenarioLetShadowRun with
  | ok r =>
    have h1 := c10_shadowed_binding_destroyed.1 20 scenarioBuilder
      (Env.init.insertSymbol 1 100) 0 int64L 1 (.Literal (.Int 0)) int64L (.Ret 1)
      100 r.1 r.2.1 r.2.2 (by simp [Env.insertSymbol, Env.init]) (by rw [← h]; rfl)
    simp [exSym, h, h1]
  | error e => rw [h] at hok; simp [exIsOk] at hok

/-- C7: every string literal lowers to a reference to the single shared
static-string constant (and no string literal produces any other
operation or value); the assembled module's constant list is exactly the one
static-string constant; and that constant is built as a fresh heap cell
wrapped in a one-element tuple, typed as the string type. -/
theorem c7_static_string :
    (∀ (b : Builder) (block : BlockId) (s : List Nat),
      literal_spec b block (.Str s) = b.emit block (.constRef MOD_APP STATIC_STR_NAME)) ∧
    (∀ (fuel : Nat) (ep : EntryPoint) (procs : List Proc) (m : ModDef),
      spec_program fuel ep procs = .ok m →
      m.consts = [(STATIC_STR_NAME, static_str_def)]) ∧
    static_str_def.builder.ops = [(0, .newHeapCell), (0, .makeTuple [0])] ∧
    static_str_def.root = (0, 1) ∧
    static_str_def.ty = MTy.tuple [MTy.heapCell] := by
  refine ⟨fun b block s => rfl, ?_, rfl, rfl, rfl⟩
  intro fuel ep procs m h
  simp only [spec_program] at h
  rw [except_bind_ok] at h
  obtain ⟨defs, -, h⟩ := h
  simp only [Except.ok.injEq] at h
  subst h
  rfl

theorem c7_static_string_witness :
    (match spec_program 1 entryPoint0 [] with
     | .ok m => m.consts
     | .error _ => []) = [(STATIC_STR_NAME, static_str_def)] := by
  cases h : spec_program 1 entryPoint0 [] with
  | ok m => simpa using c7_static_string.2.1 1 entryPoint0 [] m h
  | error e =>
    simp [spec_program, List.mapM, List.mapM.loop, Except.bind, Except.pure,
      Bind.bind, Pure.pure, Except.instMonad] at h

/-- C4: lowering the map-style higher-order list operations (`ListMap`, and
`ListMapWithIndex` with its extra unit index) draws exactly one
representative element from the list argument's bag (one `bag_get`), emits
exactly one call, addressed to the callback's identity key
(`func_name_bytes_help` of the callback symbol with the declared argument
and return layouts), whose argument tuple contains that element (plus the
closure-environment handle exactly when a closure-environment layout is
present), and produces as overall result a pessimistic unknown value typed
by the declared return layout whose dependencies are exactly the
environment-bound argument handles, the unbound callback-identity slot
excluded. -/
theorem c4_higher_order_map :
    ∀ (b : Builder) (env : Env) (block : BlockId) (layout : Layout)
      (specid : List Nat) (clo : Option Layout) (argl : List Layout) (retl : Layout)
      (xs f ce : Symbol) (xsv cev : ValueId),
    env.symbols xs = some xsv → env.symbols f = none → env.symbols ce = some cev →
    (call_spec b env block layout
        (.mk (.HigherOrderLowLevel specid clo .ListMap argl retl) [xs, f, ce]) =
      .ok (b.nextValue + 5,
        { ops := b.ops ++
            [(block, .getTupleField xsv LIST_BAG_INDEX),
             (block, .getTupleField xsv LIST_CELL_INDEX),
             (block, .bagGet b.nextValue),
             (block, .makeTuple
               (if clo.isNone then [b.nextValue + 2] else [b.nextValue + 2, cev])),
             (block, .callOp specid MOD_APP (func_name_bytes_help f argl retl)
               (b.nextValue + 3)),
             (block, .unknownWith [xsv, cev] (layout_spec layout))],
          contDefs := b.contDefs, nextValue := b.nextValue + 6,
          nextBlock := b.nextBlock, nextCont := b.nextCont })) ∧
    (call_spec b env block layout
        (.mk (.HigherOrderLowLevel specid clo .ListMapWithIndex argl retl) [xs, f, ce]) =
      .ok (b.nextValue + 6,
        { ops := b.ops ++
            [(block, .getTupleField xsv LIST_BAG_INDEX),
             (block, .getTupleField xsv LIST_CELL_INDEX),
             (block, .bagGet b.nextValue),
             (block, .makeTuple []),
             (block, .makeTuple
               (if clo.isNone then [b.nextValue + 2, b.nextValue + 3]
                else [b.nextValue + 2, b.nextValue + 3, cev])),
             (block, .callOp specid MOD_APP (func_name_bytes_help f argl retl)
               (b.nextValue + 4)),
             (block, .unknownWith [xsv, cev] (layout_spec layout))],
          contDefs := b.contDefs, nextValue := b.nextValue + 7,
          nextBlock := b.nextBlock, nextCont := b.nextCont })) ∧
    countOp
      [(block, .getTupleField xsv LIST_BAG_INDEX),
       (block, .getTupleField xsv LIST_CELL_INDEX),
       (block, .bagGet b.nextValue),
       (block, .makeTuple
         (if clo.isNone then [b.nextValue + 2] else [b.nextValue + 2, cev])),
       (block, .callOp specid MOD_APP (func_name_bytes_help f argl retl)
         (b.nextValue + 3)),
       (block, .unknownWith [xsv, cev] (layout_spec layout))] Op.isBagGet = 1 ∧
    countOp
      [(block, .getTupleField xsv LIST_BAG_INDEX),
       (block, .getTupleField xsv LIST_CELL_INDEX),
       (block, .bagGet b.nextValue),
       (block, .makeTuple
         (if clo.isNone then [b.nextValue + 2] else [b.nextValue + 2, cev])),
       (block, .callOp specid MOD_APP (func_name_bytes_help f argl retl)
         (b.nextValue + 3)),
       (block, .unknownWith [xsv, cev] (layout_spec layout))] Op.isCallOp = 1 := by
  intro b env block layout specid clo argl retl xs f ce xsv cev hxs hf hce
  refine ⟨?_, ?_, ?_, ?_⟩
  · cases clo <;>
      simp [call_spec, Call.arguments, Call.call_type, envGetArg, envGet, argGet,
        hxs, hf, hce, Builder.emit, LIST_BAG_INDEX, LIST_CELL_INDEX,
        List.filterMap, Except.bind, Except.pure, Bind.bind, Pure.pure,
        Except.instMonad, List.append_assoc]
  · cases clo <;>
      simp [call_spec, Call.arguments, Call.call_type, envGetArg, envGet, argGet,
        hxs, hf, hce, Builder.emit, LIST_BAG_INDEX, LIST_CELL_INDEX,
        List.filterMap, Except.bind, Except.pure, Bind.bind, Pure.pure,
        Except.instMonad, List.append_assoc]
  · simp [countOp, Op.isBagGet, List.filter]
  · simp [countOp, Op.isCallOp, List.filter]

theorem c4_higher_order_map_witness :
    call_spec scenarioBuilder ((Env.init.insertSymbol 20 500).insertSymbol 22 600) 0
        listInt64L (.mk (.HigherOrderLowLevel [1] none .ListMap [] int64L) [20, 21, 22]) =
      .ok (6,
        { ops := [(0, .getTupleField 500 LIST_BAG_INDEX),
                  (0, .getTupleField 500 LIST_CELL_INDEX),
                  (0, .bagGet 1),
                  (0, .makeTuple [3]),
                  (0, .callOp [1] MOD_APP (func_name_bytes_help 21 [] int64L) 4),
                  (0, .unknownWith [500, 600] (layout_spec listInt64L))],
          contDefs := [], nextValue := 7, nextBlock := 1, nextCont := 0 }) := by
  have h := (c4_higher_order_map scenarioBuilder
    ((Env.init.insertSymbol 20 500).insertSymbol 22 600) 0 listInt64L [1] none []
    int64L 20 21 22 500 600
    (by simp [Env.insertSymbol, Env.init]) (by simp [Env.insertSymbol, Env.init])
    (by simp [Env.insertSymbol, Env.init])).1
  simpa [scenarioBuilder, Builder.funcInit, Builder.addBlock] using h

/-- C9 counterexample (to the claim's converse direction): in
`scenarioDictEmptyRun` every read variable is bound by an enclosing scope
(the `Ret` reads the `Let`-bound symbol) and no jump occurs, yet the lowering
faults — the `DictEmpty` op sits at a non-dictionary layout and hits the
`unreachable!` layout-shape check, a third abrupt-fault class the claim's
well-formedness conditions do not exclude. -/
theorem c9_counterexample : scenarioDictEmptyRun = .error .unreachableCase := by
  simp [scenarioDictEmptyRun, scenarioBuilder, stmt_spec, expr_spec, call_spec,
    lowlevel_spec, envGet, Env.init, Builder.emit, Builder.addBlock,
    Builder.funcInit, layout_spec, builtin_spec, int64L, Call.arguments,
    Call.call_type, Except.bind, Except.pure, Bind.bind, Pure.pure,
    Except.instMonad]

theorem EnvDomOk_subset {l l' : List Symbol} {env : Env} (hsub : l' ⊆ l)
    (h : EnvDomOk l env) : EnvDomOk l' env :=
  fun s hs => h s (hsub hs)

theorem EnvDomOk_insert {vars : List Symbol} {env : Env} {s : Symbol} {v : ValueId}
    (h : EnvDomOk vars env) : EnvDomOk (s :: vars) (env.insertSymbol s v) := by
  intro x hx
  rcases List.mem_cons.mp hx with rfl | hx
  · simp [Env.insertSymbol]
  · simp only [Env.insertSymbol]
    by_cases hxs : x = s <;> simp [hxs, h x hx]

theorem EnvDomOk_remove {vars : List Symbol} {env : Env} {s : Symbol}
    (hs : s ∉ vars) (h : EnvDomOk vars env) : EnvDomOk vars (env.removeSymbol s) := by
  intro x hx
  have hxs : x ≠ s := fun hxe => hs (hxe ▸ hx)
  simp only [Env.removeSymbol]
  simp [hxs, h x hx]

theorem EnvDomOk_insertJoin {vars : List Symbol} {env : Env} {id : Nat} {c : ContId}
    (h : EnvDomOk vars env) : EnvDomOk vars (env.insertJoin id c) := h

theorem EnvDomOk_removeJoin {vars : List Symbol} {env : Env} {id : Nat}
    (h : EnvDomOk vars env) : EnvDomOk vars (env.removeJoin id) := h

theorem JoinDomOk_insert {joins : List Nat} {env : Env} {id : Nat} {c : ContId}
    (h : JoinDomOk joins env) : JoinDomOk (id :: joins) (env.insertJoin id c) := by
  intro x hx
  rcases List.mem_cons.mp hx with rfl | hx
  · simp [Env.insertJoin]
  · simp only [Env.insertJoin]
    by_cases hxs : x = id <;> simp [hxs, h x hx]

theorem JoinDomOk_remove {joins : List Nat} {env : Env} {id : Nat}
    (hs : id ∉ joins) (h : JoinDomOk joins env) : JoinDomOk joins (env.removeJoin id) := by
  intro x hx
  have hxs : x ≠ id := fun hxe => hs (hxe ▸ hx)
  simp only [Env.removeJoin]
  simp [hxs, h x hx]

theorem JoinDomOk_insertSymbol {joins : List Nat} {env : Env} {s : Symbol} {v : ValueId}
    (h : JoinDomOk joins env) : JoinDomOk joins (env.insertSymbol s v) := h

theorem JoinDomOk_removeSymbol {joins : List Nat} {env : Env} {s : Symbol}
    (h : JoinDomOk joins env) : JoinDomOk joins (env.removeSymbol s) := h

theorem envGet_ok {env : Env} {s : Symbol} (h : (env.symbols s).isSome = true) :
    ∃ v, envGet env s = .ok v := by
  cases hv : env.symbols s with
  | none => rw [hv] at h; simp at h
  | some v => exact ⟨v, by simp [envGet, hv]⟩

theorem argGet_ok {args : List Symbol} {i : Nat} {s : Symbol}
    (h : args[i]? = some s) : argGet args i = .ok s := by
  simp [argGet, h]

theorem envGetArg_ok {vars : List Symbol} {env : Env} {args : List Symbol} {i : Nat}
    (h : ArgRead vars args i) (hd : EnvDomOk vars env) :
    ∃ v, envGetArg env args i = .ok v := by
  obtain ⟨s, hget, hmem⟩ := h
  obtain ⟨v, hv⟩ := envGet_ok (hd s hmem)
  exact ⟨v, by simp [envGetArg, argGet_ok hget, hv, Bind.bind, Except.bind]⟩

theorem mapM_envGet_loop_ok {env : Env} {vars : List Symbol} :
    ∀ (syms : List Symbol) (acc : List ValueId), AllIn syms vars → EnvDomOk vars env →
    ∃ vs, List.mapM.loop (envGet env) syms acc = .ok vs := by
  intro syms
  induction syms with
  | nil => exact fun acc _ _ => ⟨acc.reverse, by simp [List.mapM.loop, Pure.pure, Except.pure]⟩
  | cons s rest ihr =>
    intro acc h hd
    obtain ⟨v, hv⟩ := envGet_ok (hd s (h s (by simp)))
    obtain ⟨vs, hvs⟩ := ihr (v :: acc) (fun x hx => h x (by simp [hx])) hd
    exact ⟨vs, by simp [List.mapM.loop, hv, hvs, Bind.bind, Except.bind]⟩

theorem mapM_envGet_ok {env : Env} {vars : List Symbol} {syms : List Symbol}
    (h : AllIn syms vars) (hd : EnvDomOk vars env) :
    ∃ vs, syms.mapM (envGet env) = .ok vs := by
  obtain ⟨vs, hvs⟩ := mapM_envGet_loop_ok syms [] h hd
  exact ⟨vs, by simpa [List.mapM] using hvs⟩

theorem build_tuple_value_ok (b : Builder) (env : Env) (block : BlockId)
    (syms : List Symbol) {vars : List Symbol} (h : AllIn syms vars)
    (hd : EnvDomOk vars env) :
    ∃ r, build_tuple_value b env block syms = .ok r := by
  obtain ⟨vs, hvs⟩ := mapM_envGet_loop_ok syms [] h hd
  exact ⟨b.emit block (.makeTuple vs),
    by simp [build_tuple_value, List.mapM, hvs, Bind.bind, Except.bind]⟩

theorem lowlevel_spec_ok {vars : List Symbol} (b : Builder) (env : Env) (block : BlockId)
    (layout : Layout) (op : LowLevel) (um : List Nat) (args : List Symbol)
    (h : WfLowLevel vars layout op args) (hd : EnvDomOk vars env) :
    ∃ r, lowlevel_spec b env block layout op um args = .ok r := by
  cases op <;>
    first
      | exact ⟨_, rfl⟩
      | (rcases h with h | ⟨k, v, h⟩ <;> subst h <;> exact ⟨_, rfl⟩)
      | (obtain ⟨v0, hv0⟩ := envGetArg_ok h.1 hd
         obtain ⟨v1, hv1⟩ := envGetArg_ok h.2.1 hd
         obtain ⟨v2, hv2⟩ := envGetArg_ok h.2.2 hd
         exact ⟨_, by simp only [lowlevel_spec, hv0, hv1, hv2, Bind.bind, Except.bind] <;> rfl⟩)
      | (obtain ⟨v0, hv0⟩ := envGetArg_ok h.1 hd
         obtain ⟨v1, hv1⟩ := envGetArg_ok h.2 hd
         exact ⟨_, by simp only [lowlevel_spec, hv0, hv1, Bind.bind, Except.bind] <;> rfl⟩)
      | (obtain ⟨v0, hv0⟩ := envGetArg_ok h hd
         exact ⟨_, by simp only [lowlevel_spec, hv0, Bind.bind, Except.bind] <;> rfl⟩)
      | (obtain ⟨vs, hvs⟩ := mapM_envGet_loop_ok args [] h hd
         exact ⟨_, by simp only [lowlevel_spec, List.mapM, hvs, Bind.bind, Except.bind] <;> rfl⟩)

theorem call_spec_ok {vars : List Symbol} (b : Builder) (env : Env) (block : BlockId)
    (layout : Layout) (call : Call) (h : WfCall vars layout call) (hd : EnvDomOk vars env) :
    ∃ r, call_spec b env block layout call = .ok r := by
  obtain ⟨ct, args⟩ := call
  simp only [WfCall, Call.call_type, Call.arguments] at h
  cases ct with
  | ByName name retl argl spec =>
    obtain ⟨⟨v1, b1⟩, htv⟩ := build_tuple_value_ok b env block args h hd
    exact ⟨_, by simp only [call_spec, Call.call_type, Call.arguments, htv,
      Bind.bind, Except.bind] <;> rfl⟩
  | Foreign fs retl =>
    obtain ⟨vs, hvs⟩ := mapM_envGet_loop_ok args [] h hd
    exact ⟨_, by simp only [call_spec, Call.call_type, Call.arguments, List.mapM, hvs,
      Bind.bind, Except.bind] <;> rfl⟩
  | LowLevelCall op um => exact lowlevel_spec_ok b env block layout op um args h hd
  | HigherOrderLowLevel spec clo op argl retl =>
    cases op <;>
      first
        | exact h.elim
        | (obtain ⟨⟨sf, hsf⟩, h0, h2⟩ := h
           obtain ⟨v0, hv0⟩ := envGetArg_ok h0 hd
           obtain ⟨v2, hv2⟩ := envGetArg_ok h2 hd
           cases clo <;>
             exact ⟨_, by simp only [call_spec, Call.call_type, Call.arguments,
               argGet_ok hsf, hv0, hv2, Bind.bind, Except.bind] <;> rfl⟩)
        | (obtain ⟨⟨sf, hsf⟩, h0, h1, h3⟩ := h
           obtain ⟨v0, hv0⟩ := envGetArg_ok h0 hd
           obtain ⟨v1, hv1⟩ := envGetArg_ok h1 hd
           obtain ⟨v3, hv3⟩ := envGetArg_ok h3 hd
           cases clo <;>
             exact ⟨_, by simp only [call_spec, Call.call_type, Call.arguments,
               argGet_ok hsf, hv0, hv1, hv3, Bind.bind, Except.bind] <;> rfl⟩)
        | (obtain ⟨⟨sf, hsf⟩, h0, h1, h2, h4⟩ := h
           obtain ⟨v0, hv0⟩ := envGetArg_ok h0 hd
           obtain ⟨v1, hv1⟩ := envGetArg_ok h1 hd
           obtain ⟨v2, hv2⟩ := envGetArg_ok h2 hd
           obtain ⟨v4, hv4⟩ := envGetArg_ok h4 hd
           cases clo <;>
             exact ⟨_, by simp only [call_spec, Call.call_type, Call.arguments,
               argGet_ok hsf, hv0, hv1, hv2, hv4, Bind.bind, Except.bind] <;> rfl⟩)

theorem bind_ok_of_ok {α β : Type} {x : Except Fault α} {g : α → Except Fault β}
    (hx : ∃ a, x = .ok a) (hg : ∀ a, ∃ r, g a = .ok r) : ∃ r, (x >>= g) = .ok r := by
  obtain ⟨a, ha⟩ := hx
  obtain ⟨r, hr⟩ := hg a
  exact ⟨r, by simp [ha, Bind.bind, Except.bind, hr]⟩

theorem foldlM_bagInsert_ok {vars : List Symbol} {env : Env} (hd : EnvDomOk vars env)
    (block : BlockId) :
    ∀ (elems : List Symbol) (acc : ValueId × Builder), AllIn elems vars →
    ∃ r, (elems.foldlM
      (fun (acc : ValueId × Builder) symbol => do
        let (bag, b) := acc
        let value_id ← envGet env symbol
        pure (b.emit block (.bagInsert bag value_id))) acc
      : Except Fault (ValueId × Builder)) = .ok r := by
  intro elems
  induction elems with
  | nil => exact fun acc _ => ⟨acc, by simp [List.foldlM, Pure.pure, Except.pure]⟩
  | cons s rest ihr =>
    intro acc h
    obtain ⟨v, hv⟩ := envGet_ok (hd s (h s (by simp)))
    obtain ⟨r, hr⟩ := ihr ((acc.2).emit block (.bagInsert acc.1 v))
      (fun x hx => h x (by simp [hx]))
    exact ⟨r, by
      obtain ⟨bag0, b0⟩ := acc
      simp only [List.foldlM, hv, Bind.bind, Except.bind, Pure.pure, Except.pure] at hr ⊢
      exact hr⟩

theorem expr_spec_ok {vars : List Symbol} (b : Builder) (env : Env) (block : BlockId)
    (layout : Layout) (expr : Expr) (h : WfExpr vars layout expr) (hd : EnvDomOk vars env) :
    ∃ r, expr_spec b env block layout expr = .ok r := by
  cases expr with
  | Literal lit => exact ⟨_, rfl⟩
  | Call call => exact call_spec_ok b env block layout call h hd
  | Tag tl tid args =>
    cases tl <;>
      (obtain ⟨⟨v1, b1⟩, htv⟩ := build_tuple_value_ok b env block args h hd
       exact ⟨_, by simp only [expr_spec, htv, build_variant_types,
         Bind.bind, Except.bind] <;> rfl⟩)
  | Reuse tl tid args =>
    cases tl <;>
      (obtain ⟨⟨v1, b1⟩, htv⟩ := build_tuple_value_ok b env block args h hd
       exact ⟨_, by simp only [expr_spec, htv, build_variant_types,
         Bind.bind, Except.bind] <;> rfl⟩)
  | Struct fields => exact build_tuple_value_ok b env block fields h hd
  | UnionAtIndex st tid ul idx =>
    obtain ⟨v, hv⟩ := envGet_ok (hd st h)
    cases ul <;>
      exact ⟨_, by simp only [expr_spec, hv, Bind.bind, Except.bind] <;> rfl⟩
  | StructAtIndex idx st =>
    obtain ⟨v, hv⟩ := envGet_ok (hd st h)
    exact ⟨_, by simp only [expr_spec, hv, Bind.bind, Except.bind] <;> rfl⟩
  | Array el elems =>
    simp only [expr_spec]
    exact bind_ok_of_ok (foldlM_bagInsert_ok hd block elems _ h)
      (fun a => by obtain ⟨bagv, b2⟩ := a; exact ⟨_, rfl⟩)
  | EmptyArray =>
    rcases h with h | ⟨el, h⟩ <;> subst h <;>
      exact ⟨_, by simp only [expr_spec, listLayoutTryFrom] <;> rfl⟩
  | Reset s =>
    obtain ⟨v, hv⟩ := envGet_ok (hd s h)
    exact ⟨_, by simp only [expr_spec, hv, Bind.bind, Except.bind] <;> rfl⟩
  | RuntimeErrorFunction => exact ⟨_, rfl⟩
  | GetTagId => exact ⟨_, rfl⟩

theorem JoinDomOk_subset {l l' : List Nat} {env : Env} (hsub : l' ⊆ l)
    (h : JoinDomOk l env) : JoinDomOk l' env :=
  fun j hj => h j (hsub hj)

theorem switch_fold_ok (n : Nat) (layout : Layout) {vars : List Symbol} {joins : List Nat}
    (ih : ∀ (stmt : Stmt) (b : Builder) (env : Env) (block : BlockId),
      sizeOf stmt < n → WfS vars joins stmt → EnvDomOk vars env → JoinDomOk joins env →
      ∃ v b' env', stmt_spec n b env block layout stmt = .ok (v, b', env') ∧
        EnvDomOk vars env' ∧ JoinDomOk joins env') :
    ∀ (stmts : List Stmt) (cases0 : List (BlockId × ValueId)) (b : Builder) (env : Env),
    (∀ st ∈ stmts, sizeOf st < n ∧ WfS vars joins st) →
    EnvDomOk vars env → JoinDomOk joins env →
    ∃ cs b' env',
      (stmts.foldlM
        (fun (acc : List (BlockId × ValueId) × Builder × Env) branch => do
          let (cases, b, env) := acc
          let (branch_block, b) := b.addBlock
          let (value_id, b, env) ← stmt_spec n b env branch_block layout branch
          pure (cases ++ [(branch_block, value_id)], b, env))
        (cases0, b, env) : Except Fault _) = .ok (cs, b', env') ∧
      EnvDomOk vars env' ∧ JoinDomOk joins env' := by
  intro stmts
  induction stmts with
  | nil =>
    intro cases0 b env _ hd hj
    exact ⟨cases0, b, env, by simp [List.foldlM, Pure.pure, Except.pure], hd, hj⟩
  | cons st rest ihr =>
    intro cases0 b env hall hd hj
    rcases hab : b.addBlock with ⟨branch_block, b1⟩
    obtain ⟨v, b2, env2, hst, hd2, hj2⟩ :=
      ih st b1 env branch_block (hall st (by simp)).1 (hall st (by simp)).2 hd hj
    obtain ⟨cs, b', env', hrest, hd', hj'⟩ :=
      ihr (cases0 ++ [(branch_block, v)]) b2 env2
        (fun x hx => hall x (by simp [hx])) hd2 hj2
    refine ⟨cs, b', env', ?_, hd', hj'⟩
    simp only [List.foldlM, hab, hst, Bind.bind, Except.bind, Pure.pure,
      Except.pure] at hrest ⊢
    exact hrest

theorem join_param_fold (jp_body_block : BlockId) (jp_argument : ValueId) :
    ∀ (parameters : List (Symbol × Layout)) (b : Builder) (env : Env) (i : Nat)
      (vars : List Symbol) (joins : List Nat),
    EnvDomOk vars env → JoinDomOk joins env →
    ∃ b' env' i', parameters.foldl
      (fun (acc : Builder × Env × Nat) p =>
        let (b, env, i) := acc
        let (value_id, b) := b.emit jp_body_block (.getTupleField jp_argument i)
        (b, env.insertSymbol p.1 value_id, i + 1)) (b, env, i) = (b', env', i') ∧
      EnvDomOk (parameters.map Prod.fst ++ vars) env' ∧ JoinDomOk joins env' := by
  intro parameters
  induction parameters with
  | nil =>
    intro b env i vars joins hd hj
    exact ⟨b, env, i, rfl, by simpa using hd, hj⟩
  | cons p rest ihr =>
    intro b env i vars joins hd hj
    obtain ⟨b', env', i', heq, hd', hj'⟩ :=
      ihr (b.emit jp_body_block (.getTupleField jp_argument i)).2
        (env.insertSymbol p.1 (b.emit jp_body_block (.getTupleField jp_argument i)).1)
        (i + 1) (p.1 :: vars) joins (EnvDomOk_insert hd) hj
    refine ⟨b', env', i', heq, ?_, hj'⟩
    refine EnvDomOk_subset ?_ hd'
    intro x hx
    simp only [List.map_cons, List.cons_append, List.mem_cons, List.mem_append] at hx ⊢
    tauto

theorem stmt_spec_total :
    ∀ (fuel : Nat) (stmt : Stmt) (vars : List Symbol) (joins : List Nat)
      (b : Builder) (env : Env) (block : BlockId) (layout : Layout),
    sizeOf stmt < fuel → WfS vars joins stmt → EnvDomOk vars env → JoinDomOk joins env →
    ∃ v b' env', stmt_spec fuel b env block layout stmt = .ok (v, b', env') ∧
      EnvDomOk vars env' ∧ JoinDomOk joins env' := by
  intro fuel
  induction fuel with
  | zero => intro stmt vars joins b env block layout hsz; omega
  | succ n ih =>
    intro stmt vars joins b env block layout hsz hwf hd hj
    cases hwf with
    | @wlet vars joins symbol expr expr_layout continuation hwe hfresh hwcont =>
      obtain ⟨⟨v1, b1⟩, he⟩ := expr_spec_ok b env block expr_layout expr hwe hd
      have hsz' : sizeOf continuation < n := by simp at hsz; omega
      obtain ⟨v2, b2, env2, hs, hd2, hj2⟩ :=
        ih continuation (symbol :: vars) joins b1 (env.insertSymbol symbol v1) block
          layout hsz' hwcont (EnvDomOk_insert hd) hj
      refine ⟨v2, b2, env2.removeSymbol symbol, ?_, ?_, JoinDomOk_removeSymbol hj2⟩
      · simp only [stmt_spec, he, hs, Bind.bind, Except.bind]
      · exact EnvDomOk_remove hfresh
          (EnvDomOk_subset (List.subset_cons_self symbol vars) hd2)
    | @winvoke vars joins symbol call call_layout pass fail hwc hfresh hwpass hwfail =>
      obtain ⟨⟨v1, b1⟩, hc⟩ := call_spec_ok b env block call_layout call hwc hd
      rcases hab1 : b1.addBlock with ⟨pass_block, b2⟩
      have hszp : sizeOf pass < n := by simp at hsz; omega
      obtain ⟨pv, b3, env2, hp, hd2, hj2⟩ :=
        ih pass (symbol :: vars) joins b2 (env.insertSymbol symbol v1) pass_block
          layout hszp hwpass (EnvDomOk_insert hd) hj
      rcases hab2 : b3.addBlock with ⟨fail_block, b4⟩
      have hszf : sizeOf fail < n := by simp at hsz; omega
      obtain ⟨fv, b5, env4, hf, hd4, hj4⟩ :=
        ih fail vars joins b4 (env2.removeSymbol symbol) fail_block layout hszf hwfail
          (EnvDomOk_remove hfresh
            (EnvDomOk_subset (List.subset_cons_self symbol vars) hd2))
          (JoinDomOk_removeSymbol hj2)
      refine ⟨(b5.emit block (.choice [(pass_block, pv), (fail_block, fv)])).1,
        (b5.emit block (.choice [(pass_block, pv), (fail_block, fv)])).2, env4,
        ?_, hd4, hj4⟩
      simp only [stmt_spec, hc, hab1, hp, hab2, hf, Bind.bind, Except.bind]
    | @wswitch vars joins branches default_branch hbr hdef =>
      have hmem : ∀ st ∈ branches ++ [default_branch],
          sizeOf st < n ∧ WfS vars joins st := by
        intro st hst
        rcases List.mem_append.mp hst with hst | hst
        · have h1 := List.sizeOf_lt_of_mem hst
          constructor
          · simp at hsz; omega
          · exact hbr st hst
        · simp at hst
          subst hst
          constructor
          · simp at hsz; omega
          · exact hdef
      obtain ⟨cs, b', env', hfold, hd', hj'⟩ :=
        switch_fold_ok n layout
          (fun st b env blk hs hw hdx hjx => ih st vars joins b env blk layout hs hw hdx hjx)
          (branches ++ [default_branch]) [] b env hmem hd hj
      refine ⟨(b'.emit block (.choice cs)).1, (b'.emit block (.choice cs)).2, env',
        ?_, hd', hj'⟩
      simp only [Bind.bind, Except.bind] at hfold
      simp only [stmt_spec, Bind.bind, Except.bind]
      rw [hfold]
    | @wret vars joins symbol hmem =>
      obtain ⟨v, hv⟩ := envGet_ok (hd symbol hmem)
      exact ⟨v, b, env, by simp only [stmt_spec, hv, Bind.bind, Except.bind], hd, hj⟩
    | @wrc vars joins modify_rc continuation hmem hwcont =>
      have hsz' : sizeOf continuation < n := by simp at hsz; omega
      rcases modify_rc with ⟨s, k⟩ | s | s <;>
        (obtain ⟨v, hv⟩ := envGet_ok (hd s hmem)
         obtain ⟨v2, b2, env2, hs, hd2, hj2⟩ :=
           ih continuation vars joins (b.emit block (.recursiveTouch v)).2 env block
             layout hsz' hwcont hd hj
         exact ⟨v2, b2, env2,
           by simp only [stmt_spec, hv, hs, Bind.bind, Except.bind], hd2, hj2⟩)
    | @wjoin vars joins id parameters body remainder hfreshJ hwrem hwbody =>
      rcases hdc : b.declareContinuation block
          (MTy.tuple (parameters.map (fun p => layout_spec p.2))) (layout_spec layout)
        with ⟨jpid, jp_argument, b1⟩
      rcases hab1 : b1.addBlock with ⟨cont_block, b2⟩
      have hszr : sizeOf remainder < n := by simp at hsz; omega
      obtain ⟨cv, b3, env2, hrem, hd2, hj2⟩ :=
        ih remainder vars (id :: joins) b2 (env.insertJoin id jpid) cont_block layout
          hszr hwrem hd (JoinDomOk_insert hj)
      rcases hab2 : b3.addBlock with ⟨jp_body_block, b4⟩
      obtain ⟨b5, env3, i3, hfold, hd3, hj3⟩ :=
        join_param_fold jp_body_block jp_argument parameters b4 env2 0 vars (id :: joins)
          hd2 hj2
      have hszb : sizeOf body < n := by simp at hsz; omega
      obtain ⟨bv, b6, env4, hbody, hd4, hj4⟩ :=
        ih body (parameters.map Prod.fst ++ vars) (id :: joins) b5 env3 jp_body_block
          layout hszb hwbody hd3 hj3
      refine ⟨((b6.defineContinuation jpid (jp_body_block, bv)).emit block
          (.subBlock (cont_block, cv))).1,
        ((b6.defineContinuation jpid (jp_body_block, bv)).emit block
          (.subBlock (cont_block, cv))).2, env4.removeJoin id, ?_, ?_, ?_⟩
      · simp only [stmt_spec, hdc, hab1, hrem, hab2, hfold, hbody, Bind.bind,
          Except.bind]
      · exact EnvDomOk_removeJoin
          (EnvDomOk_subset (List.subset_append_right _ _) hd4)
      · exact JoinDomOk_remove hfreshJ
          (JoinDomOk_subset (List.subset_cons_self id joins) hj4)
    | @wjump vars joins id symbols hmem hall =>
      obtain ⟨⟨av, b1⟩, htv⟩ := build_tuple_value_ok b env block symbols hall hd
      obtain ⟨jpid, hjp⟩ := Option.isSome_iff_exists.mp (hj id hmem)
      exact ⟨(b1.emit block (.jumpOp jpid av (layout_spec layout))).1,
        (b1.emit block (.jumpOp jpid av (layout_spec layout))).2, env,
        by simp only [stmt_spec, htv, hjp, Bind.bind, Except.bind], hd, hj⟩
    | @wresume vars joins => exact ⟨_, _, env, rfl, hd, hj⟩
    | @werror vars joins => exact ⟨_, _, env, rfl, hd, hj⟩

/-- C9 amended: the lowering faults abruptly — an error distinct from any
returned value, modelling the Rust `panic!` — when it reads a variable that
is not bound in the environment (`Ret` on an unbound symbol) or jumps to an
undeclared join-point id; and conversely, lowering completes without a fault
for every input that is well-formed in the strengthened sense `WfS`: every
read variable bound by an enclosing scope, every join id declared before any
jump, and additionally no shadowing of live bindings by `Let`/`Invoke`
binders or join ids, recognized higher-order opcodes with adequate argument
arity, and layout-shape sanity (`DictEmpty`/`EmptyArray` at collection
layouts).  The extra conditions are necessary: see the counterexample, where
the claim's own conditions hold and lowering still faults. -/
theorem c9_fault_model :
    (∀ (fuel : Nat) (b : Builder) (env : Env) (block : BlockId) (layout : Layout)
       (s : Symbol), env.symbols s = none →
      stmt_spec (fuel + 1) b env block layout (.Ret s) = .error (.unboundSymbol s)) ∧
    (∀ (fuel : Nat) (b : Builder) (env : Env) (block : BlockId) (layout : Layout)
       (id : Nat), env.join_points id = none →
      stmt_spec (fuel + 1) b env block layout (.Jump id []) =
        .error (.undeclaredJoinPoint id)) ∧
    (∀ (fuel : Nat) (stmt : Stmt) (vars : List Symbol) (joins : List Nat)
       (b : Builder) (env : Env) (block : BlockId) (layout : Layout),
      sizeOf stmt < fuel → WfS vars joins stmt → EnvDomOk vars env →
      JoinDomOk joins env →
      ∃ v b' env', stmt_spec fuel b env block layout stmt = .ok (v, b', env')) := by
  refine ⟨?_, ?_, ?_⟩
  · intro fuel b env block layout s h
    simp [stmt_spec, envGet, h, Bind.bind, Except.bind]
  · intro fuel b env block layout id h
    simp [stmt_spec, build_tuple_value, List.mapM, List.mapM.loop, h, Bind.bind,
      Except.bind, Pure.pure, Except.pure]
  · intro fuel stmt vars joins b env block layout hsz hwf hd hj
    obtain ⟨v, b', env', heq, -, -⟩ :=
      stmt_spec_total fuel stmt vars joins b env block layout hsz hwf hd hj
    exact ⟨v, b', env', heq⟩

theorem c9_fault_model_witness :
    stmt_spec 1 scenarioBuilder Env.init 0 int64L (.Ret 0) =
      .error (.unboundSymbol 0) ∧
    stmt_spec 1 scenarioBuilder Env.init 0 int64L (.Jump 5 []) =
      .error (.undeclaredJoinPoint 5) ∧
    ∃ v b' env', stmt_spec 3 scenarioBuilder (Env.init.insertSymbol 1 5) 0 int64L
      (.Ret 1) = .ok (v, b', env') := by
  refine ⟨c9_fault_model.1 0 scenarioBuilder Env.init 0 int64L 0 rfl,
    c9_fault_model.2.1 0 scenarioBuilder Env.init 0 int64L 5 rfl,
    c9_fault_model.2.2 3 (.Ret 1) [1] [] scenarioBuilder
      (Env.init.insertSymbol 1 5) 0 int64L (by decide) (WfS.wret (by simp))
      ?_ ?_⟩
  · intro s hs
    simp only [List.mem_singleton] at hs
    subst hs
    simp [Env.insertSymbol, Env.init]
  · intro j hjm
    simp at hjm
